import Mathlib

/-!
Verification of the replication-analysis core (`go/vt/vtorc/inst/analysis_dao.go`):
the per-row classifier inside `GetReplicationAnalysis`, the per-shard aggregation
(`clusterAnalysis`), the cross-analysis reconciler `postProcessAnalyses`, and the
debounced audit writer `auditInstanceAnalysisInChangelog`.

The embedding is shallow: each Go function becomes a Lean function over explicit
state.  External collaborators (the SQL snapshot source, the durability-policy
resolver, the store) are modelled at their interface: the snapshot scan becomes a
list of `Row` records carrying exactly the columns the Go code reads, the policy
resolver becomes a `String → Option Durabler` parameter, and the three durable
statements of the audit writer become state transitions with an injectable
per-statement failure flag.  `float64` heartbeat values are taken at their exact
rational value (doubling a finite double is exact, and every `int32` is exactly
representable, so the `math.Round` comparison is faithfully mirrored over `ℚ`
with half-away-from-zero rounding).
-/

/-- Tablet types as used by the analysis code: `PRIMARY`, the replica-like types
(`REPLICA`, `RDONLY`), `UNKNOWN` (the proto zero value) and a stand-in for every
other type. -/
inductive TabletType where
  | PRIMARY
  | REPLICA
  | RDONLY
  | UNKNOWN
  | OTHER
deriving DecidableEq, Repr

/-- Modelled from the spec: `topo.IsReplicaType` (not part of the analysed
sources) holds exactly for the replica-like tablet types. -/
def isReplicaType (t : TabletType) : Bool :=
  t = TabletType.REPLICA ∨ t = TabletType.RDONLY

/-- The analysis codes produced by `GetReplicationAnalysis` (the closed
`AnalysisCode` enumeration, restricted to the variants this file assigns). -/
inductive AnalysisCode where
  | NoProblem
  | InvalidPrimary
  | InvalidReplica
  | PrimaryDiskStalled
  | DeadPrimaryWithoutReplicas
  | DeadPrimary
  | DeadPrimaryAndReplicas
  | DeadPrimaryAndSomeReplicas
  | PrimaryHasPrimary
  | PrimaryIsReadOnly
  | PrimarySemiSyncMustBeSet
  | PrimarySemiSyncMustNotBeSet
  | PrimaryCurrentTypeMismatch
  | ErrantGTIDDetected
  | ClusterHasNoPrimary
  | PrimaryTabletDeleted
  | PrimarySemiSyncBlocked
  | ReplicaIsWritable
  | NotConnectedToPrimary
  | ReplicaMisconfigured
  | ConnectedToWrongPrimary
  | ReplicationStopped
  | ReplicaSemiSyncMustBeSet
  | ReplicaSemiSyncMustNotBeSet
  | UnreachablePrimaryWithLaggingReplicas
  | UnreachablePrimary
  | LockedSemiSyncPrimary
  | LockedSemiSyncPrimaryHypothesis
  | PrimarySingleReplicaNotReplicating
  | PrimarySingleReplicaDead
  | AllPrimaryReplicasNotReplicating
  | AllPrimaryReplicasNotReplicatingOrDead
deriving DecidableEq, Repr

/-- The structure-analysis warnings appended by the structural checks. -/
inductive StructureAnalysisCode where
  | NoLoggingReplicasStructureWarning
  | NoFailoverSupportStructureWarning
  | StatementAndMixedLoggingReplicasStructureWarning
  | StatementAndRowLoggingReplicasStructureWarning
  | MixedAndRowLoggingReplicasStructureWarning
  | MultipleMajorVersionsLoggingReplicasStructureWarning
  | DifferentGTIDModesStructureWarning
  | ErrantGTIDStructureWarning
  | NoWriteablePrimaryStructureWarning
  | NotEnoughValidSemiSyncReplicasStructureWarning
deriving DecidableEq, Repr

/-- A parsed tablet record: only the alias (via `topoproto.TabletAliasString`)
and the type are consumed by the analysis code. -/
structure Tablet where
  tabletAlias : String
  ttype : TabletType
deriving DecidableEq, Repr

/-- The zero-valued `topodatapb.Tablet`: nil alias stringifies to `""`, type is
the proto zero value `UNKNOWN`. -/
def Tablet.empty : Tablet := { tabletAlias := "", ttype := TabletType.UNKNOWN }

/-- Modelled from the spec: the durability-policy capability object
(`policy.Durabler`, not part of the analysed sources), answering
`policy.SemiSyncAckers(durability, tablet)` and
`policy.IsReplicaSemiSync(durability, primaryTablet, replicaTablet)`. -/
structure Durabler where
  semiSyncAckers : Tablet → Int
  isReplicaSemiSync : Tablet → Tablet → Bool

/-- One row of the snapshot scan, carrying exactly the columns the Go row
callback reads.  `tabletInfo = none` models a `tablet_info` payload that fails
to unmarshal.  `primaryTabletInfo` distinguishes an empty `primary_tablet_info`
string (`none`, primary tablet left zero-valued), a malformed payload
(`some none`, row skipped) and a parsed payload (`some (some t)`). -/
structure Row where
  tabletInfo : Option Tablet
  primaryTabletInfo : Option (Option Tablet)
  keyspace : String
  shard : String
  isSnapshotKeyspace : Bool
  durabilityPolicy : String
  shardPrimaryTermTimestampZero : Bool
  IsPrimary : Bool
  isInvalid : Bool
  isStaleBinlogCoordinates : Bool
  LastCheckValid : Bool
  LastCheckPartialSuccess : Bool
  CountReplicas : Nat
  CountValidReplicas : Nat
  CountValidReplicatingReplicas : Nat
  ReplicationStopped : Bool
  ErrantGTID : String
  CountValidOracleGTIDReplicas : Nat
  CountValidBinlogServerReplicas : Nat
  SemiSyncPrimaryEnabled : Bool
  SemiSyncPrimaryStatus : Bool
  SemiSyncBlocked : Bool
  SemiSyncReplicaEnabled : Bool
  CountSemiSyncReplicasEnabled : Nat
  SemiSyncPrimaryWaitForReplicaCount : Nat
  SemiSyncPrimaryClients : Nat
  GTIDMode : String
  MinReplicaGTIDMode : String
  MaxReplicaGTIDMode : String
  MaxReplicaGTIDErrant : String
  CountLoggingReplicas : Nat
  CountStatementBasedLoggingReplicas : Nat
  CountMixedBasedLoggingReplicas : Nat
  CountRowBasedLoggingReplicas : Nat
  CountDistinctMajorVersionsLoggingReplicas : Nat
  CountDelayedReplicas : Nat
  CountLaggingReplicas : Nat
  ReplicaNetTimeout : Int
  HeartbeatInterval : ℚ
  IsReadOnly : Bool
  IsDiskStalled : Bool
  CurrentTabletType : TabletType

/-- The fields of a `ReplicationAnalysis` record consumed downstream in this
file (by `appendAnalysis`, `postProcessAnalyses` and the claims); the remaining
populated fields of the Go struct are plain copies of row columns that nothing
in this file reads back. -/
structure ReplicationAnalysis where
  AnalyzedInstanceAlias : String
  AnalyzedInstancePrimaryAlias : String
  AnalyzedKeyspace : String
  AnalyzedShard : String
  TabletType : TabletType
  IsPrimary : Bool
  IsClusterPrimary : Bool
  LastCheckValid : Bool
  ReplicationStopped : Bool
  Analysis : AnalysisCode
  StructureAnalysis : List StructureAnalysisCode
deriving DecidableEq, Repr

/-- Per-shard aggregate (`clusterAnalysis` in the Go code). -/
structure clusterAnalysis where
  hasShardWideAction : Bool
  totalTablets : Nat
  primaryAlias : String
  durability : Option Durabler

/-- Go `math.Round` on the exact rational value of a double: nearest integer,
halves rounded away from zero. -/
def mathRound (x : ℚ) : ℚ :=
  if 0 ≤ x then ((Int.floor (x + 1/2) : Int) : ℚ) else -((Int.floor (-x + 1/2) : Int) : ℚ)

/-- The ordered first-match-wins predicate chain of `GetReplicationAnalysis`
(lines 405-539): given the shard's durability capability, the shard aggregate's
`primaryAlias`, whether this row was marked the cluster primary, the parsed
tablet and primary-tablet payloads and the row, it returns the assigned
`AnalysisCode` together with whether that branch sets
`ca.hasShardWideAction = true`. -/
def classify (dur : Durabler) (primaryAlias : String) (IsClusterPrimary : Bool)
    (tablet primaryTablet : Tablet) (r : Row) : AnalysisCode × Bool :=
  if IsClusterPrimary ∧ r.isInvalid then
    (AnalysisCode.InvalidPrimary, false)
  else if r.isInvalid then
    (AnalysisCode.InvalidReplica, false)
  else if IsClusterPrimary ∧ ¬r.LastCheckValid ∧ r.IsDiskStalled then
    (AnalysisCode.PrimaryDiskStalled, true)
  else if IsClusterPrimary ∧ ¬r.LastCheckValid ∧ r.CountReplicas = 0 then
    (AnalysisCode.DeadPrimaryWithoutReplicas, true)
  else if IsClusterPrimary ∧ ¬r.LastCheckValid ∧ r.CountValidReplicas = r.CountReplicas ∧
      r.CountValidReplicatingReplicas = 0 then
    (AnalysisCode.DeadPrimary, true)
  else if IsClusterPrimary ∧ ¬r.LastCheckValid ∧ 0 < r.CountReplicas ∧
      r.CountValidReplicas = 0 ∧ r.CountValidReplicatingReplicas = 0 then
    (AnalysisCode.DeadPrimaryAndReplicas, true)
  else if IsClusterPrimary ∧ ¬r.LastCheckValid ∧ r.CountValidReplicas < r.CountReplicas ∧
      0 < r.CountValidReplicas ∧ r.CountValidReplicatingReplicas = 0 then
    (AnalysisCode.DeadPrimaryAndSomeReplicas, true)
  else if IsClusterPrimary ∧ ¬r.IsPrimary then
    (AnalysisCode.PrimaryHasPrimary, true)
  else if IsClusterPrimary ∧ r.IsReadOnly then
    (AnalysisCode.PrimaryIsReadOnly, false)
  else if IsClusterPrimary ∧ dur.semiSyncAckers tablet ≠ 0 ∧ ¬r.SemiSyncPrimaryEnabled then
    (AnalysisCode.PrimarySemiSyncMustBeSet, false)
  else if IsClusterPrimary ∧ dur.semiSyncAckers tablet = 0 ∧ r.SemiSyncPrimaryEnabled then
    (AnalysisCode.PrimarySemiSyncMustNotBeSet, false)
  else if IsClusterPrimary ∧ r.CurrentTabletType ≠ TabletType.UNKNOWN ∧
      r.CurrentTabletType ≠ TabletType.PRIMARY then
    (AnalysisCode.PrimaryCurrentTypeMismatch, false)
  else if isReplicaType tablet.ttype ∧ r.ErrantGTID ≠ "" then
    (AnalysisCode.ErrantGTIDDetected, false)
  else if isReplicaType tablet.ttype ∧ primaryAlias = "" ∧ r.shardPrimaryTermTimestampZero then
    (AnalysisCode.ClusterHasNoPrimary, true)
  else if isReplicaType tablet.ttype ∧ primaryAlias = "" ∧ ¬r.shardPrimaryTermTimestampZero then
    (AnalysisCode.PrimaryTabletDeleted, true)
  else if r.IsPrimary ∧ r.SemiSyncBlocked ∧
      r.SemiSyncPrimaryWaitForReplicaCount ≤ r.CountSemiSyncReplicasEnabled then
    (AnalysisCode.PrimarySemiSyncBlocked, true)
  else if isReplicaType tablet.ttype ∧ ¬r.IsReadOnly then
    (AnalysisCode.ReplicaIsWritable, false)
  else if isReplicaType tablet.ttype ∧ r.IsPrimary then
    (AnalysisCode.NotConnectedToPrimary, false)
  else if isReplicaType tablet.ttype ∧ ¬r.IsPrimary ∧
      mathRound (r.HeartbeatInterval * 2) ≠ (r.ReplicaNetTimeout : ℚ) then
    (AnalysisCode.ReplicaMisconfigured, false)
  else if isReplicaType tablet.ttype ∧ ¬r.IsPrimary ∧ primaryAlias ≠ "" ∧
      primaryTablet.tabletAlias ≠ primaryAlias then
    (AnalysisCode.ConnectedToWrongPrimary, false)
  else if isReplicaType tablet.ttype ∧ ¬r.IsPrimary ∧ r.ReplicationStopped then
    (AnalysisCode.ReplicationStopped, false)
  else if isReplicaType tablet.ttype ∧ ¬r.IsPrimary ∧
      dur.isReplicaSemiSync primaryTablet tablet ∧ ¬r.SemiSyncReplicaEnabled then
    (AnalysisCode.ReplicaSemiSyncMustBeSet, false)
  else if isReplicaType tablet.ttype ∧ ¬r.IsPrimary ∧
      ¬dur.isReplicaSemiSync primaryTablet tablet ∧ r.SemiSyncReplicaEnabled then
    (AnalysisCode.ReplicaSemiSyncMustNotBeSet, false)
  else if r.IsPrimary ∧ ¬r.LastCheckValid ∧ r.CountLaggingReplicas = r.CountReplicas ∧
      r.CountDelayedReplicas < r.CountReplicas ∧ 0 < r.CountValidReplicatingReplicas then
    (AnalysisCode.UnreachablePrimaryWithLaggingReplicas, false)
  else if r.IsPrimary ∧ ¬r.LastCheckValid ∧ ¬r.LastCheckPartialSuccess ∧
      0 < r.CountValidReplicas ∧ 0 < r.CountValidReplicatingReplicas then
    (AnalysisCode.UnreachablePrimary, false)
  else if r.IsPrimary ∧ r.SemiSyncPrimaryEnabled ∧ r.SemiSyncPrimaryStatus ∧
      0 < r.SemiSyncPrimaryWaitForReplicaCount ∧
      r.SemiSyncPrimaryClients < r.SemiSyncPrimaryWaitForReplicaCount then
    if r.isStaleBinlogCoordinates then
      (AnalysisCode.LockedSemiSyncPrimary, false)
    else
      (AnalysisCode.LockedSemiSyncPrimaryHypothesis, false)
  else if r.IsPrimary ∧ r.LastCheckValid ∧ r.CountReplicas = 1 ∧
      r.CountValidReplicas = r.CountReplicas ∧ r.CountValidReplicatingReplicas = 0 then
    (AnalysisCode.PrimarySingleReplicaNotReplicating, false)
  else if r.IsPrimary ∧ r.LastCheckValid ∧ r.CountReplicas = 1 ∧ r.CountValidReplicas = 0 then
    (AnalysisCode.PrimarySingleReplicaDead, false)
  else if r.IsPrimary ∧ r.LastCheckValid ∧ 1 < r.CountReplicas ∧
      r.CountValidReplicas = r.CountReplicas ∧ r.CountValidReplicatingReplicas = 0 then
    (AnalysisCode.AllPrimaryReplicasNotReplicating, false)
  else if r.IsPrimary ∧ r.LastCheckValid ∧ 1 < r.CountReplicas ∧
      r.CountValidReplicas < r.CountReplicas ∧ 0 < r.CountValidReplicas ∧
      r.CountValidReplicatingReplicas = 0 then
    (AnalysisCode.AllPrimaryReplicasNotReplicatingOrDead, false)
  else
    (AnalysisCode.NoProblem, false)

/-- The unordered structural checks (lines 545-583): every applicable warning is
collected, in the order the Go code appends them. -/
def structureChecks (r : Row) : List StructureAnalysisCode :=
  let oracleGTIDImmediateTopology :=
    r.CountValidOracleGTIDReplicas = r.CountValidReplicas ∧ 0 < r.CountValidReplicas
  let binlogServerImmediateTopology :=
    r.CountValidBinlogServerReplicas = r.CountValidReplicas ∧ 0 < r.CountValidReplicas
  (if r.IsPrimary ∧ r.CountLoggingReplicas = 0 ∧ 1 < r.CountReplicas then
    [StructureAnalysisCode.NoLoggingReplicasStructureWarning] else [])
  ++ (if r.IsPrimary ∧ 1 < r.CountReplicas ∧ ¬oracleGTIDImmediateTopology ∧
        ¬binlogServerImmediateTopology then
    [StructureAnalysisCode.NoFailoverSupportStructureWarning] else [])
  ++ (if r.IsPrimary ∧ 0 < r.CountStatementBasedLoggingReplicas ∧
        0 < r.CountMixedBasedLoggingReplicas then
    [StructureAnalysisCode.StatementAndMixedLoggingReplicasStructureWarning] else [])
  ++ (if r.IsPrimary ∧ 0 < r.CountStatementBasedLoggingReplicas ∧
        0 < r.CountRowBasedLoggingReplicas then
    [StructureAnalysisCode.StatementAndRowLoggingReplicasStructureWarning] else [])
  ++ (if r.IsPrimary ∧ 0 < r.CountMixedBasedLoggingReplicas ∧
        0 < r.CountRowBasedLoggingReplicas then
    [StructureAnalysisCode.MixedAndRowLoggingReplicasStructureWarning] else [])
  ++ (if r.IsPrimary ∧ 1 < r.CountDistinctMajorVersionsLoggingReplicas then
    [StructureAnalysisCode.MultipleMajorVersionsLoggingReplicasStructureWarning] else [])
  ++ (if 0 < r.CountReplicas ∧
        (r.GTIDMode ≠ r.MinReplicaGTIDMode ∨ r.GTIDMode ≠ r.MaxReplicaGTIDMode) then
    [StructureAnalysisCode.DifferentGTIDModesStructureWarning] else [])
  ++ (if r.MaxReplicaGTIDErrant ≠ "" then
    [StructureAnalysisCode.ErrantGTIDStructureWarning] else [])
  ++ (if r.IsPrimary ∧ r.IsReadOnly then
    [StructureAnalysisCode.NoWriteablePrimaryStructureWarning] else [])
  ++ (if r.IsPrimary ∧ r.SemiSyncPrimaryEnabled ∧ ¬r.SemiSyncPrimaryStatus ∧
        0 < r.SemiSyncPrimaryWaitForReplicaCount ∧
        r.SemiSyncPrimaryClients < r.SemiSyncPrimaryWaitForReplicaCount then
    [StructureAnalysisCode.NotEnoughValidSemiSyncReplicasStructureWarning] else [])

/-- Shard key: `getKeyspaceShardName(keyspace, shard)`, modelled as the pair
itself (the Go helper only forms an injective display key). -/
def KSKey : Type := String × String

instance : DecidableEq KSKey := instDecidableEqProd

/-- Pointwise update of a finite map modelled as a function. -/
def mapSet {α β : Type} [DecidableEq α] (f : α → Option β) (k : α) (v : β) :
    α → Option β :=
  fun x => if x = k then some v else f x

/-- State threaded through the row callback of `GetReplicationAnalysis`: the
`clusters` map and the accumulated `result` slice. -/
structure PassState where
  clusters : KSKey → Option clusterAnalysis
  result : List ReplicationAnalysis

/-- Decoding of the `primary_tablet_info` column: an empty string leaves the
primary tablet zero-valued, a malformed payload (`some none`) makes the row
callback return early. -/
def parsePrimaryTablet : Option (Option Tablet) → Option Tablet
  | none => some Tablet.empty
  | some none => none
  | some (some t) => some t

/-- Durability-policy resolution for a shard seen for the first time: an empty
policy name and a resolver failure both leave the shard without a capability
(lines 381-391). -/
def resolveDurability (resolve : String → Option Durabler) (name : String) :
    Option Durabler :=
  if name = "" then none else resolve name

/-- The `ReplicationAnalysis` record built for one row (the fields of `a` that
are read later in the file). -/
def mkReplicationAnalysis (row : Row) (tablet primaryTablet : Tablet)
    (IsClusterPrimary : Bool) (code : AnalysisCode)
    (warnings : List StructureAnalysisCode) : ReplicationAnalysis :=
  { AnalyzedInstanceAlias := tablet.tabletAlias
    AnalyzedInstancePrimaryAlias := primaryTablet.tabletAlias
    AnalyzedKeyspace := row.keyspace
    AnalyzedShard := row.shard
    TabletType := tablet.ttype
    IsPrimary := row.IsPrimary
    IsClusterPrimary := IsClusterPrimary
    LastCheckValid := row.LastCheckValid
    ReplicationStopped := row.ReplicationStopped
    Analysis := code
    StructureAnalysis := warnings }

/-- The tail of the row callback once the shard's `clusterAnalysis` entry `ca`
exists (lines 393-592): increment `totalTablets`, stop if a shard-wide action
was already taken or the durability policy failed to load, otherwise classify,
run the structural checks, record a shard-wide action if the branch demands it,
and append the analysis unless it is `NoProblem` with no warnings. -/
def continueRow (st : PassState) (key : KSKey) (ca : clusterAnalysis) (row : Row)
    (tablet primaryTablet : Tablet) (IsClusterPrimary : Bool) : PassState :=
  let ca1 := { ca with totalTablets := ca.totalTablets + 1 }
  if ca1.hasShardWideAction then
    { st with clusters := mapSet st.clusters key ca1 }
  else
    match ca1.durability with
    | none => { st with clusters := mapSet st.clusters key ca1 }
    | some dur =>
      let c := classify dur ca1.primaryAlias IsClusterPrimary tablet primaryTablet row
      let warnings := structureChecks row
      let ca2 := if c.2 then { ca1 with hasShardWideAction := true } else ca1
      let a := mkReplicationAnalysis row tablet primaryTablet IsClusterPrimary c.1 warnings
      { clusters := mapSet st.clusters key ca2
        result :=
          if c.1 = AnalysisCode.NoProblem ∧ warnings = [] then st.result
          else st.result ++ [a] }

/-- One iteration of the row callback of `GetReplicationAnalysis` (lines
280-592), audit side effects aside: decode skips, type and snapshot-keyspace
skips, first-row shard bookkeeping (cluster-primary marking and durability
resolution, with the early return on resolution failure placed before the
`totalTablets` increment, as in the source), then `continueRow`. -/
def processRow (resolve : String → Option Durabler) (st : PassState) (row : Row) :
    PassState :=
  match row.tabletInfo with
  | none => st
  | some tablet =>
    if tablet.ttype ≠ TabletType.PRIMARY ∧ ¬isReplicaType tablet.ttype then st
    else
      match parsePrimaryTablet row.primaryTabletInfo with
      | none => st
      | some primaryTablet =>
        if row.isSnapshotKeyspace then st
        else
          let key : KSKey := (row.keyspace, row.shard)
          match st.clusters key with
          | none =>
            let IsClusterPrimary := tablet.ttype = TabletType.PRIMARY
            let pAlias := if IsClusterPrimary then tablet.tabletAlias else ""
            match resolveDurability resolve row.durabilityPolicy with
            | none =>
              let ca0 : clusterAnalysis :=
                { hasShardWideAction := false, totalTablets := 0,
                  primaryAlias := pAlias, durability := none }
              { st with clusters := mapSet st.clusters key ca0 }
            | some dur =>
              continueRow st key
                { hasShardWideAction := false, totalTablets := 0,
                  primaryAlias := pAlias, durability := some dur }
                row tablet primaryTablet IsClusterPrimary
          | some ca => continueRow st key ca row tablet primaryTablet false

/-- The whole classification pass over the ordered snapshot rows: a sequential
fold of `processRow` from the empty state. -/
def runPass (resolve : String → Option Durabler) (rows : List Row) : PassState :=
  rows.foldl (processRow resolve) { clusters := fun _ => none, result := [] }

/-- Replace the `Analysis` code of the element at position `i` (the in-place
pointer mutation `analysis.Analysis = DeadPrimary` of the Go slice). -/
def setAnalysis : List ReplicationAnalysis → Nat → AnalysisCode →
    List ReplicationAnalysis
  | [], _, _ => []
  | a :: rest, 0, code => { a with Analysis := code } :: rest
  | a :: rest, i + 1, code => a :: setAnalysis rest i code

/-- The inner scan of `postProcessAnalyses` (lines 620-628) collecting, with
their indices, the same-shard replica-type analyses whose last check is invalid
or whose replication is stopped.  `i` is the index of the first element of the
remaining list within the full slice. -/
def notReplicatingIdxsAux (ks sh : String) : Nat → List ReplicationAnalysis →
    List Nat
  | _, [] => []
  | i, r :: rest =>
    if r.AnalyzedKeyspace = ks ∧ r.AnalyzedShard = sh ∧ isReplicaType r.TabletType ∧
        (¬r.LastCheckValid ∨ r.ReplicationStopped) then
      i :: notReplicatingIdxsAux ks sh (i + 1) rest
    else
      notReplicatingIdxsAux ks sh (i + 1) rest

/-- Removal of the elements whose position belongs to `idxs` (the Go loop over
`notReplicatingReplicas` in descending index order, lines 634-637).  `s` is the
position of the head of the remaining list. -/
def removeIdxs : List ReplicationAnalysis → List Nat → Nat →
    List ReplicationAnalysis
  | [], _, _ => []
  | x :: rest, idxs, s =>
    if s ∈ idxs then removeIdxs rest idxs (s + 1)
    else x :: removeIdxs rest idxs (s + 1)

/-- The scan of the outer `for _, analysis := range result` loop (lines
611-641): find the first `InvalidPrimary` analysis whose shard satisfies the
upgrade condition, returning its index together with the indices to remove.
`totalTablets` is the pass's `clusters` map restricted to the one field the
reconciler reads (a missing shard key, unreachable for genuine pass output, is
read as zero). -/
def findUpgrade (totalTablets : KSKey → Int) (full : List ReplicationAnalysis) :
    Nat → List ReplicationAnalysis → Option (Nat × List Nat)
  | _, [] => none
  | j, r :: rest =>
    if r.Analysis = AnalysisCode.InvalidPrimary then
      let totalReplicas := totalTablets (r.AnalyzedKeyspace, r.AnalyzedShard) - 1
      let idxs := notReplicatingIdxsAux r.AnalyzedKeyspace r.AnalyzedShard 0 full
      if 0 < totalReplicas ∧ (idxs.length : Int) = totalReplicas then
        some (j, idxs)
      else
        findUpgrade totalTablets full (j + 1) rest
    else
      findUpgrade totalTablets full (j + 1) rest

/-- One `resultChanged` iteration of `postProcessAnalyses`: if some
`InvalidPrimary` analysis fires, upgrade it to `DeadPrimary` and remove all the
not-replicating same-shard replica analyses; otherwise report no change. -/
def postProcessStep (totalTablets : KSKey → Int)
    (result : List ReplicationAnalysis) : Option (List ReplicationAnalysis) :=
  match findUpgrade totalTablets result 0 result with
  | none => none
  | some (j, idxs) =>
    some (removeIdxs (setAnalysis result j AnalysisCode.DeadPrimary) idxs 0)

theorem setAnalysis_length (xs : List ReplicationAnalysis) (i : Nat)
    (code : AnalysisCode) : (setAnalysis xs i code).length = xs.length := by
  induction xs generalizing i with
  | nil => rfl
  | cons x rest ih =>
    cases i with
    | zero => rfl
    | succ n => simpa [setAnalysis] using ih n

theorem removeIdxs_length_le (xs : List ReplicationAnalysis) (idxs : List Nat)
    (s : Nat) : (removeIdxs xs idxs s).length ≤ xs.length := by
  induction xs generalizing s with
  | nil => simp [removeIdxs]
  | cons x rest ih =>
    by_cases h : s ∈ idxs
    · simp only [removeIdxs, if_pos h]
      exact le_trans (ih (s + 1)) (Nat.le_succ _)
    · simpa [removeIdxs, if_neg h] using ih (s + 1)

theorem removeIdxs_length_lt (xs : List ReplicationAnalysis) (idxs : List Nat)
    (s i : Nat) (hmem : i ∈ idxs) (hs : s ≤ i) (hlt : i < s + xs.length) :
    (removeIdxs xs idxs s).length < xs.length := by
  induction xs generalizing s with
  | nil => simp only [List.length_nil] at hlt; omega
  | cons x rest ih =>
    by_cases h : s ∈ idxs
    · simp only [removeIdxs, if_pos h, List.length_cons]
      exact Nat.lt_succ_of_le (removeIdxs_length_le rest idxs (s + 1))
    · have hne : i ≠ s := fun he => h (he ▸ hmem)
      have : s + 1 ≤ i := by omega
      simp only [removeIdxs, if_neg h, List.length_cons]
      have := ih (s + 1) this (by simpa [Nat.add_right_comm] using hlt)
      omega

theorem notReplicatingIdxsAux_bounds (ks sh : String)
    (xs : List ReplicationAnalysis) (s i : Nat)
    (h : i ∈ notReplicatingIdxsAux ks sh s xs) : s ≤ i ∧ i < s + xs.length := by
  induction xs generalizing s with
  | nil => simp [notReplicatingIdxsAux] at h
  | cons x rest ih =>
    simp only [notReplicatingIdxsAux] at h
    split at h
    · rcases List.mem_cons.mp h with rfl | h'
      · simp
      · have := ih (s + 1) h'
        constructor <;> [omega; simpa [Nat.add_right_comm] using this.2]
    · have := ih (s + 1) h
      constructor <;> [omega; simpa [Nat.add_right_comm] using this.2]

theorem findUpgrade_some (totalTablets : KSKey → Int)
    (full sub : List ReplicationAnalysis) (j j' : Nat) (idxs : List Nat)
    (h : findUpgrade totalTablets full j sub = some (j', idxs)) :
    0 < idxs.length ∧ ∀ i ∈ idxs, i < full.length := by
  induction sub generalizing j with
  | nil => simp [findUpgrade] at h
  | cons r rest ih =>
    simp only [findUpgrade] at h
    split at h
    · split at h
      · rename_i hcond
        injection h with h1
        injection h1 with hj hidxs
        subst hidxs
        refine ⟨?_, ?_⟩
        · have := hcond.2
          omega
        · intro i hi
          have := notReplicatingIdxsAux_bounds _ _ full 0 i hi
          omega
      · exact ih (j + 1) h
    · exact ih (j + 1) h

theorem postProcessStep_length_lt (totalTablets : KSKey → Int)
    (result result' : List ReplicationAnalysis)
    (h : postProcessStep totalTablets result = some result') :
    result'.length < result.length := by
  unfold postProcessStep at h
  cases hfu : findUpgrade totalTablets result 0 result with
  | none => simp [hfu] at h
  | some ji =>
    obtain ⟨j, idxs⟩ := ji
    simp only [hfu] at h
    injection h with h
    subst h
    obtain ⟨hpos, hbound⟩ := findUpgrade_some totalTablets result result 0 j idxs hfu
    obtain ⟨i, hi⟩ := List.exists_mem_of_length_pos hpos
    calc (removeIdxs (setAnalysis result j AnalysisCode.DeadPrimary) idxs 0).length
        < (setAnalysis result j AnalysisCode.DeadPrimary).length := by
          refine removeIdxs_length_lt _ idxs 0 i hi (Nat.zero_le _) ?_
          rw [setAnalysis_length]
          simpa using hbound i hi
      _ = result.length := setAnalysis_length _ _ _

/-- The `for { ... resultChanged ... }` fixpoint loop of `postProcessAnalyses`:
rescan after every change until no change happens.  Terminates because every
change removes at least one analysis. -/
def postProcessLoop (totalTablets : KSKey → Int)
    (result : List ReplicationAnalysis) : List ReplicationAnalysis :=
  match h : postProcessStep totalTablets result with
  | none => result
  | some result' => postProcessLoop totalTablets result'
termination_by result.length
decreasing_by exact postProcessStep_length_lt totalTablets result result' h

/-- `postProcessAnalyses` (lines 605-647): the cross-analysis reconciler run
over the full result slice with the pass's `clusters` map. -/
def postProcessAnalyses (result : List ReplicationAnalysis)
    (clusters : KSKey → Option clusterAnalysis) : List ReplicationAnalysis :=
  postProcessLoop (fun key => ((clusters key).map (fun ca => (ca.totalTablets : Int))).getD 0)
    result

/-- `GetReplicationAnalysis` restricted to its pure core: the classification
pass over the decoded snapshot rows followed by the reconciler. -/
def getReplicationAnalysis (resolve : String → Option Durabler)
    (rows : List Row) : List ReplicationAnalysis :=
  let st := runPass resolve rows
  postProcessAnalyses st.result st.clusters

/-- State shared by the audit writer: the in-memory debounce cache
(`recentInstantAnalysis`, TTL expiry not modelled: every entry written in the
modelled window is still live), the durable single-row-per-alias
`database_instance_last_analysis` ledger, and the append-only
`database_instance_analysis_changelog` (timestamps carry no information the
claims consult and are omitted). -/
structure AuditState where
  cache : String → Option AnalysisCode
  lastAnalysis : String → Option AnalysisCode
  changelog : List (String × AnalysisCode)

/-- Injectable failure of each of the three durable statements a single audit
call may execute, in program order. -/
structure StoreFaults where
  failUpdate : Bool
  failInsert : Bool
  failChangelog : Bool

/-- All three statements succeed. -/
def noFaults : StoreFaults :=
  { failUpdate := false, failInsert := false, failChangelog := false }

/-- `auditInstanceAnalysisInChangelog` (lines 652-739).  Returns the new state
and whether the call returned an error.  Control flow follows the source: cache
hit on the same code refreshes the cache and writes nothing; the conditional
`UPDATE` of the last-analysis row fires only when the stored code differs; the
`INSERT OR IGNORE` is attempted only when the update affected no row and takes
effect only when no row existed; the cache is refreshed (line 715) before the
changelog `INSERT` is attempted; the changelog row is appended only when the
update or the fresh insert took effect.  A failing statement makes the call
return the error at that point with no further writes. -/
def auditInstanceAnalysisInChangelog (f : StoreFaults) (st : AuditState)
    (tabletAlias : String) (analysisCode : AnalysisCode) : AuditState × Bool :=
  if st.cache tabletAlias = some analysisCode then
    ({ st with cache := fun a => if a = tabletAlias then some analysisCode else st.cache a },
     false)
  else if f.failUpdate then
    (st, true)
  else
    let lastAnalysisChanged :=
      match st.lastAnalysis tabletAlias with
      | some stored => decide (stored ≠ analysisCode)
      | none => false
    let st1 :=
      if lastAnalysisChanged then
        { st with lastAnalysis :=
            fun a => if a = tabletAlias then some analysisCode else st.lastAnalysis a }
      else st
    if !lastAnalysisChanged && f.failInsert then
      (st1, true)
    else
      let firstInsertion := !lastAnalysisChanged && decide (st.lastAnalysis tabletAlias = none)
      let st2 :=
        if firstInsertion then
          { st1 with lastAnalysis :=
              fun a => if a = tabletAlias then some analysisCode else st1.lastAnalysis a }
        else st1
      let st3 :=
        { st2 with cache :=
            fun a => if a = tabletAlias then some analysisCode else st2.cache a }
      if !lastAnalysisChanged && !firstInsertion then
        (st3, false)
      else if f.failChangelog then
        (st3, true)
      else
        ({ st3 with changelog := st3.changelog ++ [(tabletAlias, analysisCode)] }, false)

/-- Iterated sequential audit calls for one alias and one code (the caller
discards the returned error, as the `go func` at line 589 does). -/
def auditRepeat (f : StoreFaults) (st : AuditState) (tabletAlias : String)
    (analysisCode : AnalysisCode) : Nat → AuditState
  | 0 => st
  | n + 1 =>
    auditRepeat f (auditInstanceAnalysisInChangelog f st tabletAlias analysisCode).1
      tabletAlias analysisCode n

/-- A durability capability used as a concrete instantiation in the examples
below: one required semi-sync acker, no replica required to semi-sync. -/
def testDurabler : Durabler :=
  { semiSyncAckers := fun _ => 1, isReplicaSemiSync := fun _ _ => false }

/-- A resolver that resolves every policy name to `testDurabler`. -/
def testResolve : String → Option Durabler := fun _ => some testDurabler

/-- A resolver for which every policy lookup fails. -/
def failResolve : String → Option Durabler := fun _ => none

/-- A healthy replica-type snapshot row of shard `ks/0`, used as the base of
the concrete instantiations below. -/
def baseRow : Row :=
  { tabletInfo := some { tabletAlias := "zone1-0000000001", ttype := TabletType.REPLICA }
    primaryTabletInfo := none
    keyspace := "ks"
    shard := "0"
    isSnapshotKeyspace := false
    durabilityPolicy := "semi_sync"
    shardPrimaryTermTimestampZero := true
    IsPrimary := false
    isInvalid := false
    isStaleBinlogCoordinates := false
    LastCheckValid := true
    LastCheckPartialSuccess := false
    CountReplicas := 0
    CountValidReplicas := 0
    CountValidReplicatingReplicas := 0
    ReplicationStopped := false
    ErrantGTID := ""
    CountValidOracleGTIDReplicas := 0
    CountValidBinlogServerReplicas := 0
    SemiSyncPrimaryEnabled := false
    SemiSyncPrimaryStatus := false
    SemiSyncBlocked := false
    SemiSyncReplicaEnabled := false
    CountSemiSyncReplicasEnabled := 0
    SemiSyncPrimaryWaitForReplicaCount := 0
    SemiSyncPrimaryClients := 0
    GTIDMode := "ON"
    MinReplicaGTIDMode := ""
    MaxReplicaGTIDMode := ""
    MaxReplicaGTIDErrant := ""
    CountLoggingReplicas := 0
    CountStatementBasedLoggingReplicas := 0
    CountMixedBasedLoggingReplicas := 0
    CountRowBasedLoggingReplicas := 0
    CountDistinctMajorVersionsLoggingReplicas := 0
    CountDelayedReplicas := 0
    CountLaggingReplicas := 0
    ReplicaNetTimeout := 4
    HeartbeatInterval := 2
    IsReadOnly := true
    IsDiskStalled := false
    CurrentTabletType := TabletType.REPLICA }

/-- A healthy primary-type snapshot row of the same shard. -/
def basePrimaryRow : Row :=
  { baseRow with
    tabletInfo := some { tabletAlias := "zone1-0000000100", ttype := TabletType.PRIMARY }
    IsPrimary := true
    IsReadOnly := false
    SemiSyncPrimaryEnabled := true
    CurrentTabletType := TabletType.PRIMARY }

/-- The primary row of the shard, unreachable and with no replicas: classified
`DeadPrimaryWithoutReplicas`, a shard-wide action. -/
def deadPrimaryRow : Row := { basePrimaryRow with LastCheckValid := false }

/-- A replica row that is unexpectedly writable: classified
`ReplicaIsWritable`, an instance-scoped code. -/
def writableReplicaRow : Row := { baseRow with IsReadOnly := false }

/-- The analysis codes whose classifier branch records a shard-wide action
(`ca.hasShardWideAction = true`). -/
def isShardWideCode : AnalysisCode → Bool
  | AnalysisCode.PrimaryDiskStalled => true
  | AnalysisCode.DeadPrimaryWithoutReplicas => true
  | AnalysisCode.DeadPrimary => true
  | AnalysisCode.DeadPrimaryAndReplicas => true
  | AnalysisCode.DeadPrimaryAndSomeReplicas => true
  | AnalysisCode.PrimaryHasPrimary => true
  | AnalysisCode.ClusterHasNoPrimary => true
  | AnalysisCode.PrimaryTabletDeleted => true
  | AnalysisCode.PrimarySemiSyncBlocked => true
  | _ => false

/-- Number of analyses of shard `key` carrying a shard-wide code. -/
def countShardWide (res : List ReplicationAnalysis) (key : KSKey) : Nat :=
  res.countP (fun a =>
    decide (a.AnalyzedKeyspace = key.1) && decide (a.AnalyzedShard = key.2) &&
      isShardWideCode a.Analysis)

/-- The shard-wide-action flag of shard `key` in a pass state (`false` when the
shard has no aggregate yet). -/
def flagOf (st : PassState) (key : KSKey) : Bool :=
  match st.clusters key with
  | some ca => ca.hasShardWideAction
  | none => false

set_option maxHeartbeats 2000000 in
theorem classify_flag_eq (dur : Durabler) (primaryAlias : String)
    (IsClusterPrimary : Bool) (tablet primaryTablet : Tablet) (r : Row) :
    (classify dur primaryAlias IsClusterPrimary tablet primaryTablet r).2 =
      isShardWideCode (classify dur primaryAlias IsClusterPrimary tablet primaryTablet r).1 := by
  suffices h : ∀ code sw,
      classify dur primaryAlias IsClusterPrimary tablet primaryTablet r = (code, sw) →
      sw = isShardWideCode code by
    exact h (classify dur primaryAlias IsClusterPrimary tablet primaryTablet r).1
      (classify dur primaryAlias IsClusterPrimary tablet primaryTablet r).2 rfl
  intro code sw hx
  unfold classify at hx
  by_cases hc1 : IsClusterPrimary ∧ r.isInvalid
  · rw [if_pos hc1] at hx; injection hx with ha hb; subst ha; subst hb; rfl
  rw [if_neg hc1] at hx
  by_cases hc2 : r.isInvalid
  · rw [if_pos hc2] at hx; injection hx with ha hb; subst ha; subst hb; rfl
  rw [if_neg hc2] at hx
  by_cases hc3 : IsClusterPrimary ∧ ¬r.LastCheckValid ∧ r.IsDiskStalled
  · rw [if_pos hc3] at hx; injection hx with ha hb; subst ha; subst hb; rfl
  rw [if_neg hc3] at hx
  by_cases hc4 : IsClusterPrimary ∧ ¬r.LastCheckValid ∧ r.CountReplicas = 0
  · rw [if_pos hc4] at hx; injection hx with ha hb; subst ha; subst hb; rfl
  rw [if_neg hc4] at hx
  by_cases hc5 : IsClusterPrimary ∧ ¬r.LastCheckValid ∧ r.CountValidReplicas = r.CountReplicas ∧ r.CountValidReplicatingReplicas = 0
  · rw [if_pos hc5] at hx; injection hx with ha hb; subst ha; subst hb; rfl
  rw [if_neg hc5] at hx
  by_cases hc6 : IsClusterPrimary ∧ ¬r.LastCheckValid ∧ 0 < r.CountReplicas ∧ r.CountValidReplicas = 0 ∧ r.CountValidReplicatingReplicas = 0
  · rw [if_pos hc6] at hx; injection hx with ha hb; subst ha; subst hb; rfl
  rw [if_neg hc6] at hx
  by_cases hc7 : IsClusterPrimary ∧ ¬r.LastCheckValid ∧ r.CountValidReplicas < r.CountReplicas ∧ 0 < r.CountValidReplicas ∧ r.CountValidReplicatingReplicas = 0
  · rw [if_pos hc7] at hx; injection hx with ha hb; subst ha; subst hb; rfl
  rw [if_neg hc7] at hx
  by_cases hc8 : IsClusterPrimary ∧ ¬r.IsPrimary
  · rw [if_pos hc8] at hx; injection hx with ha hb; subst ha; subst hb; rfl
  rw [if_neg hc8] at hx
  by_cases hc9 : IsClusterPrimary ∧ r.IsReadOnly
  · rw [if_pos hc9] at hx; injection hx with ha hb; subst ha; subst hb; rfl
  rw [if_neg hc9] at hx
  by_cases hc10 : IsClusterPrimary ∧ dur.semiSyncAckers tablet ≠ 0 ∧ ¬r.SemiSyncPrimaryEnabled
  · rw [if_pos hc10] at hx; injection hx with ha hb; subst ha; subst hb; rfl
  rw [if_neg hc10] at hx
  by_cases hc11 : IsClusterPrimary ∧ dur.semiSyncAckers tablet = 0 ∧ r.SemiSyncPrimaryEnabled
  · rw [if_pos hc11] at hx; injection hx with ha hb; subst ha; subst hb; rfl
  rw [if_neg hc11] at hx
  by_cases hc12 : IsClusterPrimary ∧ r.CurrentTabletType ≠ TabletType.UNKNOWN ∧ r.CurrentTabletType ≠ TabletType.PRIMARY
  · rw [if_pos hc12] at hx; injection hx with ha hb; subst ha; subst hb; rfl
  rw [if_neg hc12] at hx
  by_cases hc13 : isReplicaType tablet.ttype ∧ r.ErrantGTID ≠ ""
  · rw [if_pos hc13] at hx; injection hx with ha hb; subst ha; subst hb; rfl
  rw [if_neg hc13] at hx
  by_cases hc14 : isReplicaType tablet.ttype ∧ primaryAlias = "" ∧ r.shardPrimaryTermTimestampZero
  · rw [if_pos hc14] at hx; injection hx with ha hb; subst ha; subst hb; rfl
  rw [if_neg hc14] at hx
  by_cases hc15 : isReplicaType tablet.ttype ∧ primaryAlias = "" ∧ ¬r.shardPrimaryTermTimestampZero
  · rw [if_pos hc15] at hx; injection hx with ha hb; subst ha; subst hb; rfl
  rw [if_neg hc15] at hx
  by_cases hc16 : r.IsPrimary ∧ r.SemiSyncBlocked ∧ r.SemiSyncPrimaryWaitForReplicaCount ≤ r.CountSemiSyncReplicasEnabled
  · rw [if_pos hc16] at hx; injection hx with ha hb; subst ha; subst hb; rfl
  rw [if_neg hc16] at hx
  by_cases hc17 : isReplicaType tablet.ttype ∧ ¬r.IsReadOnly
  · rw [if_pos hc17] at hx; injection hx with ha hb; subst ha; subst hb; rfl
  rw [if_neg hc17] at hx
  by_cases hc18 : isReplicaType tablet.ttype ∧ r.IsPrimary
  · rw [if_pos hc18] at hx; injection hx with ha hb; subst ha; subst hb; rfl
  rw [if_neg hc18] at hx
  by_cases hc19 : isReplicaType tablet.ttype ∧ ¬r.IsPrimary ∧ mathRound (r.HeartbeatInterval * 2) ≠ (r.ReplicaNetTimeout : ℚ)
  · rw [if_pos hc19] at hx; injection hx with ha hb; subst ha; subst hb; rfl
  rw [if_neg hc19] at hx
  by_cases hc20 : isReplicaType tablet.ttype ∧ ¬r.IsPrimary ∧ primaryAlias ≠ "" ∧ primaryTablet.tabletAlias ≠ primaryAlias
  · rw [if_pos hc20] at hx; injection hx with ha hb; subst ha; subst hb; rfl
  rw [if_neg hc20] at hx
  by_cases hc21 : isReplicaType tablet.ttype ∧ ¬r.IsPrimary ∧ r.ReplicationStopped
  · rw [if_pos hc21] at hx; injection hx with ha hb; subst ha; subst hb; rfl
  rw [if_neg hc21] at hx
  by_cases hc22 : isReplicaType tablet.ttype ∧ ¬r.IsPrimary ∧ dur.isReplicaSemiSync primaryTablet tablet ∧ ¬r.SemiSyncReplicaEnabled
  · rw [if_pos hc22] at hx; injection hx with ha hb; subst ha; subst hb; rfl
  rw [if_neg hc22] at hx
  by_cases hc23 : isReplicaType tablet.ttype ∧ ¬r.IsPrimary ∧ ¬dur.isReplicaSemiSync primaryTablet tablet ∧ r.SemiSyncReplicaEnabled
  · rw [if_pos hc23] at hx; injection hx with ha hb; subst ha; subst hb; rfl
  rw [if_neg hc23] at hx
  by_cases hc24 : r.IsPrimary ∧ ¬r.LastCheckValid ∧ r.CountLaggingReplicas = r.CountReplicas ∧ r.CountDelayedReplicas < r.CountReplicas ∧ 0 < r.CountValidReplicatingReplicas
  · rw [if_pos hc24] at hx; injection hx with ha hb; subst ha; subst hb; rfl
  rw [if_neg hc24] at hx
  by_cases hc25 : r.IsPrimary ∧ ¬r.LastCheckValid ∧ ¬r.LastCheckPartialSuccess ∧ 0 < r.CountValidReplicas ∧ 0 < r.CountValidReplicatingReplicas
  · rw [if_pos hc25] at hx; injection hx with ha hb; subst ha; subst hb; rfl
  rw [if_neg hc25] at hx
  by_cases hc26 : r.IsPrimary ∧ r.SemiSyncPrimaryEnabled ∧ r.SemiSyncPrimaryStatus ∧ 0 < r.SemiSyncPrimaryWaitForReplicaCount ∧ r.SemiSyncPrimaryClients < r.SemiSyncPrimaryWaitForReplicaCount
  · rw [if_pos hc26] at hx
    by_cases hst : r.isStaleBinlogCoordinates = true
    · rw [if_pos hst] at hx; injection hx with ha hb; subst ha; subst hb; rfl
    · rw [if_neg hst] at hx; injection hx with ha hb; subst ha; subst hb; rfl
  rw [if_neg hc26] at hx
  by_cases hc27 : r.IsPrimary ∧ r.LastCheckValid ∧ r.CountReplicas = 1 ∧ r.CountValidReplicas = r.CountReplicas ∧ r.CountValidReplicatingReplicas = 0
  · rw [if_pos hc27] at hx; injection hx with ha hb; subst ha; subst hb; rfl
  rw [if_neg hc27] at hx
  by_cases hc28 : r.IsPrimary ∧ r.LastCheckValid ∧ r.CountReplicas = 1 ∧ r.CountValidReplicas = 0
  · rw [if_pos hc28] at hx; injection hx with ha hb; subst ha; subst hb; rfl
  rw [if_neg hc28] at hx
  by_cases hc29 : r.IsPrimary ∧ r.LastCheckValid ∧ 1 < r.CountReplicas ∧ r.CountValidReplicas = r.CountReplicas ∧ r.CountValidReplicatingReplicas = 0
  · rw [if_pos hc29] at hx; injection hx with ha hb; subst ha; subst hb; rfl
  rw [if_neg hc29] at hx
  by_cases hc30 : r.IsPrimary ∧ r.LastCheckValid ∧ 1 < r.CountReplicas ∧ r.CountValidReplicas < r.CountReplicas ∧ 0 < r.CountValidReplicas ∧ r.CountValidReplicatingReplicas = 0
  · rw [if_pos hc30] at hx; injection hx with ha hb; subst ha; subst hb; rfl
  rw [if_neg hc30] at hx
  injection hx with ha hb; subst ha; subst hb; rfl

/-- C1: a snapshot row that reaches classification with `is_invalid = true` is
assigned the invalid code — `InvalidPrimary` when the row was marked the
shard's cluster primary, `InvalidReplica` otherwise — regardless of the values
of every other field: the invalid branches head the predicate chain, so the
invalid condition outranks every other primary-scoped and replica-scoped
condition. -/
theorem classify_invalid_precedence (dur : Durabler) (primaryAlias : String)
    (IsClusterPrimary : Bool) (tablet primaryTablet : Tablet) (r : Row)
    (h : r.isInvalid = true) :
    (classify dur primaryAlias IsClusterPrimary tablet primaryTablet r).1 =
      if IsClusterPrimary then AnalysisCode.InvalidPrimary
      else AnalysisCode.InvalidReplica := by
  cases hc : IsClusterPrimary <;> simp [classify, h, hc]

/-- Witness for C1 at two concrete invalid rows, one cluster primary and one
replica. -/
theorem classify_invalid_precedence_witness :
    (classify testDurabler "" true
        { tabletAlias := "zone1-0000000100", ttype := TabletType.PRIMARY }
        Tablet.empty { deadPrimaryRow with isInvalid := true }).1 =
      AnalysisCode.InvalidPrimary ∧
    (classify testDurabler "" false
        { tabletAlias := "zone1-0000000001", ttype := TabletType.REPLICA }
        Tablet.empty { baseRow with isInvalid := true }).1 =
      AnalysisCode.InvalidReplica := by
  constructor
  · simpa using classify_invalid_precedence testDurabler "" true
      { tabletAlias := "zone1-0000000100", ttype := TabletType.PRIMARY }
      Tablet.empty { deadPrimaryRow with isInvalid := true } rfl
  · simpa using classify_invalid_precedence testDurabler "" false
      { tabletAlias := "zone1-0000000001", ttype := TabletType.REPLICA }
      Tablet.empty { baseRow with isInvalid := true } rfl

/-- C8: a replica-type row that does not believe itself a primary and matches
no earlier predicate of the replica chain (not invalid, no errant GTIDs, the
shard aggregate has a primary alias, the row is read-only) is classified
`ReplicaMisconfigured` exactly when `round(heartbeat_interval * 2)` differs
from `replica_net_timeout`. -/
theorem classify_replicaMisconfigured_iff (dur : Durabler) (primaryAlias : String)
    (tablet primaryTablet : Tablet) (r : Row)
    (hrt : isReplicaType tablet.ttype = true)
    (hinv : r.isInvalid = false)
    (herr : r.ErrantGTID = "")
    (hpa : primaryAlias ≠ "")
    (hip : r.IsPrimary = false)
    (hro : r.IsReadOnly = true) :
    (classify dur primaryAlias false tablet primaryTablet r).1 =
        AnalysisCode.ReplicaMisconfigured ↔
      mathRound (r.HeartbeatInterval * 2) ≠ (r.ReplicaNetTimeout : ℚ) := by
  suffices h : ∀ code sw,
      classify dur primaryAlias false tablet primaryTablet r = (code, sw) →
      (code = AnalysisCode.ReplicaMisconfigured ↔
        mathRound (r.HeartbeatInterval * 2) ≠ (r.ReplicaNetTimeout : ℚ)) by
    exact h (classify dur primaryAlias false tablet primaryTablet r).1
      (classify dur primaryAlias false tablet primaryTablet r).2 rfl
  intro code sw hx
  unfold classify at hx
  by_cases hc1 : (false : Bool) ∧ r.isInvalid
  · exfalso; revert hc1; simp [hinv, herr, hpa, hip, hro]
  rw [if_neg hc1] at hx
  by_cases hc2 : r.isInvalid
  · exfalso; revert hc2; simp [hinv, herr, hpa, hip, hro]
  rw [if_neg hc2] at hx
  by_cases hc3 : (false : Bool) ∧ ¬r.LastCheckValid ∧ r.IsDiskStalled
  · exfalso; revert hc3; simp [hinv, herr, hpa, hip, hro]
  rw [if_neg hc3] at hx
  by_cases hc4 : (false : Bool) ∧ ¬r.LastCheckValid ∧ r.CountReplicas = 0
  · exfalso; revert hc4; simp [hinv, herr, hpa, hip, hro]
  rw [if_neg hc4] at hx
  by_cases hc5 : (false : Bool) ∧ ¬r.LastCheckValid ∧ r.CountValidReplicas = r.CountReplicas ∧ r.CountValidReplicatingReplicas = 0
  · exfalso; revert hc5; simp [hinv, herr, hpa, hip, hro]
  rw [if_neg hc5] at hx
  by_cases hc6 : (false : Bool) ∧ ¬r.LastCheckValid ∧ 0 < r.CountReplicas ∧ r.CountValidReplicas = 0 ∧ r.CountValidReplicatingReplicas = 0
  · exfalso; revert hc6; simp [hinv, herr, hpa, hip, hro]
  rw [if_neg hc6] at hx
  by_cases hc7 : (false : Bool) ∧ ¬r.LastCheckValid ∧ r.CountValidReplicas < r.CountReplicas ∧ 0 < r.CountValidReplicas ∧ r.CountValidReplicatingReplicas = 0
  · exfalso; revert hc7; simp [hinv, herr, hpa, hip, hro]
  rw [if_neg hc7] at hx
  by_cases hc8 : (false : Bool) ∧ ¬r.IsPrimary
  · exfalso; revert hc8; simp [hinv, herr, hpa, hip, hro]
  rw [if_neg hc8] at hx
  by_cases hc9 : (false : Bool) ∧ r.IsReadOnly
  · exfalso; revert hc9; simp [hinv, herr, hpa, hip, hro]
  rw [if_neg hc9] at hx
  by_cases hc10 : (false : Bool) ∧ dur.semiSyncAckers tablet ≠ 0 ∧ ¬r.SemiSyncPrimaryEnabled
  · exfalso; revert hc10; simp [hinv, herr, hpa, hip, hro]
  rw [if_neg hc10] at hx
  by_cases hc11 : (false : Bool) ∧ dur.semiSyncAckers tablet = 0 ∧ r.SemiSyncPrimaryEnabled
  · exfalso; revert hc11; simp [hinv, herr, hpa, hip, hro]
  rw [if_neg hc11] at hx
  by_cases hc12 : (false : Bool) ∧ r.CurrentTabletType ≠ TabletType.UNKNOWN ∧ r.CurrentTabletType ≠ TabletType.PRIMARY
  · exfalso; revert hc12; simp [hinv, herr, hpa, hip, hro]
  rw [if_neg hc12] at hx
  by_cases hc13 : isReplicaType tablet.ttype ∧ r.ErrantGTID ≠ ""
  · exfalso; revert hc13; simp [hinv, herr, hpa, hip, hro]
  rw [if_neg hc13] at hx
  by_cases hc14 : isReplicaType tablet.ttype ∧ primaryAlias = "" ∧ r.shardPrimaryTermTimestampZero
  · exfalso; revert hc14; simp [hinv, herr, hpa, hip, hro]
  rw [if_neg hc14] at hx
  by_cases hc15 : isReplicaType tablet.ttype ∧ primaryAlias = "" ∧ ¬r.shardPrimaryTermTimestampZero
  · exfalso; revert hc15; simp [hinv, herr, hpa, hip, hro]
  rw [if_neg hc15] at hx
  by_cases hc16 : r.IsPrimary ∧ r.SemiSyncBlocked ∧ r.SemiSyncPrimaryWaitForReplicaCount ≤ r.CountSemiSyncReplicasEnabled
  · exfalso; revert hc16; simp [hinv, herr, hpa, hip, hro]
  rw [if_neg hc16] at hx
  by_cases hc17 : isReplicaType tablet.ttype ∧ ¬r.IsReadOnly
  · exfalso; revert hc17; simp [hinv, herr, hpa, hip, hro]
  rw [if_neg hc17] at hx
  by_cases hc18 : isReplicaType tablet.ttype ∧ r.IsPrimary
  · exfalso; revert hc18; simp [hinv, herr, hpa, hip, hro]
  rw [if_neg hc18] at hx
  by_cases hc19 : isReplicaType tablet.ttype ∧ ¬r.IsPrimary ∧ mathRound (r.HeartbeatInterval * 2) ≠ (r.ReplicaNetTimeout : ℚ)
  · rw [if_pos hc19] at hx
    injection hx with ha hb
    subst ha
    exact iff_of_true rfl hc19.2.2
  rw [if_neg hc19] at hx
  by_cases hc20 : isReplicaType tablet.ttype ∧ ¬r.IsPrimary ∧ primaryAlias ≠ "" ∧ primaryTablet.tabletAlias ≠ primaryAlias
  · rw [if_pos hc20] at hx
    injection hx with ha hb
    subst ha
    have hmEq : mathRound (r.HeartbeatInterval * 2) = (r.ReplicaNetTimeout : ℚ) := by
      simpa [hrt, hip] using hc19
    exact iff_of_false (by simp) (by simp [hmEq])
  rw [if_neg hc20] at hx
  by_cases hc21 : isReplicaType tablet.ttype ∧ ¬r.IsPrimary ∧ r.ReplicationStopped
  · rw [if_pos hc21] at hx
    injection hx with ha hb
    subst ha
    have hmEq : mathRound (r.HeartbeatInterval * 2) = (r.ReplicaNetTimeout : ℚ) := by
      simpa [hrt, hip] using hc19
    exact iff_of_false (by simp) (by simp [hmEq])
  rw [if_neg hc21] at hx
  by_cases hc22 : isReplicaType tablet.ttype ∧ ¬r.IsPrimary ∧ dur.isReplicaSemiSync primaryTablet tablet ∧ ¬r.SemiSyncReplicaEnabled
  · rw [if_pos hc22] at hx
    injection hx with ha hb
    subst ha
    have hmEq : mathRound (r.HeartbeatInterval * 2) = (r.ReplicaNetTimeout : ℚ) := by
      simpa [hrt, hip] using hc19
    exact iff_of_false (by simp) (by simp [hmEq])
  rw [if_neg hc22] at hx
  by_cases hc23 : isReplicaType tablet.ttype ∧ ¬r.IsPrimary ∧ ¬dur.isReplicaSemiSync primaryTablet tablet ∧ r.SemiSyncReplicaEnabled
  · rw [if_pos hc23] at hx
    injection hx with ha hb
    subst ha
    have hmEq : mathRound (r.HeartbeatInterval * 2) = (r.ReplicaNetTimeout : ℚ) := by
      simpa [hrt, hip] using hc19
    exact iff_of_false (by simp) (by simp [hmEq])
  rw [if_neg hc23] at hx
  by_cases hc24 : r.IsPrimary ∧ ¬r.LastCheckValid ∧ r.CountLaggingReplicas = r.CountReplicas ∧ r.CountDelayedReplicas < r.CountReplicas ∧ 0 < r.CountValidReplicatingReplicas
  · exfalso; revert hc24; simp [hinv, herr, hpa, hip, hro]
  rw [if_neg hc24] at hx
  by_cases hc25 : r.IsPrimary ∧ ¬r.LastCheckValid ∧ ¬r.LastCheckPartialSuccess ∧ 0 < r.CountValidReplicas ∧ 0 < r.CountValidReplicatingReplicas
  · exfalso; revert hc25; simp [hinv, herr, hpa, hip, hro]
  rw [if_neg hc25] at hx
  by_cases hc26 : r.IsPrimary ∧ r.SemiSyncPrimaryEnabled ∧ r.SemiSyncPrimaryStatus ∧ 0 < r.SemiSyncPrimaryWaitForReplicaCount ∧ r.SemiSyncPrimaryClients < r.SemiSyncPrimaryWaitForReplicaCount
  · exfalso; revert hc26; simp [hinv, herr, hpa, hip, hro]
  rw [if_neg hc26] at hx
  by_cases hc27 : r.IsPrimary ∧ r.LastCheckValid ∧ r.CountReplicas = 1 ∧ r.CountValidReplicas = r.CountReplicas ∧ r.CountValidReplicatingReplicas = 0
  · exfalso; revert hc27; simp [hinv, herr, hpa, hip, hro]
  rw [if_neg hc27] at hx
  by_cases hc28 : r.IsPrimary ∧ r.LastCheckValid ∧ r.CountReplicas = 1 ∧ r.CountValidReplicas = 0
  · exfalso; revert hc28; simp [hinv, herr, hpa, hip, hro]
  rw [if_neg hc28] at hx
  by_cases hc29 : r.IsPrimary ∧ r.LastCheckValid ∧ 1 < r.CountReplicas ∧ r.CountValidReplicas = r.CountReplicas ∧ r.CountValidReplicatingReplicas = 0
  · exfalso; revert hc29; simp [hinv, herr, hpa, hip, hro]
  rw [if_neg hc29] at hx
  by_cases hc30 : r.IsPrimary ∧ r.LastCheckValid ∧ 1 < r.CountReplicas ∧ r.CountValidReplicas < r.CountReplicas ∧ 0 < r.CountValidReplicas ∧ r.CountValidReplicatingReplicas = 0
  · exfalso; revert hc30; simp [hinv, herr, hpa, hip, hro]
  rw [if_neg hc30] at hx
  injection hx with ha hb
  subst ha
  have hmEq : mathRound (r.HeartbeatInterval * 2) = (r.ReplicaNetTimeout : ℚ) := by
    simpa [hrt, hip] using hc19
  exact iff_of_false (by simp) (by simp [hmEq])

/-- Witness for C8: with `heartbeat_interval = 2.0`, a timeout of 5 yields
`ReplicaMisconfigured` while a timeout of 4 does not. -/
theorem classify_replicaMisconfigured_iff_witness :
    (classify testDurabler "zone1-0000000100" false
        { tabletAlias := "zone1-0000000001", ttype := TabletType.REPLICA }
        Tablet.empty { baseRow with ReplicaNetTimeout := 5 }).1 =
      AnalysisCode.ReplicaMisconfigured ∧
    (classify testDurabler "zone1-0000000100" false
        { tabletAlias := "zone1-0000000001", ttype := TabletType.REPLICA }
        Tablet.empty baseRow).1 ≠ AnalysisCode.ReplicaMisconfigured := by
  constructor
  · exact (classify_replicaMisconfigured_iff testDurabler "zone1-0000000100"
      { tabletAlias := "zone1-0000000001", ttype := TabletType.REPLICA }
      Tablet.empty { baseRow with ReplicaNetTimeout := 5 }
      (by decide) rfl rfl (by decide) rfl rfl).mpr (by norm_num [mathRound, baseRow])
  · intro hcon
    exact absurd (by norm_num [mathRound, baseRow] :
        mathRound (baseRow.HeartbeatInterval * 2) = (baseRow.ReplicaNetTimeout : ℚ))
      ((classify_replicaMisconfigured_iff testDurabler "zone1-0000000100"
        { tabletAlias := "zone1-0000000001", ttype := TabletType.REPLICA }
        Tablet.empty baseRow (by decide) rfl rfl (by decide) rfl rfl).mp hcon)

theorem postProcessLoop_eq (tt : KSKey → Int) (result : List ReplicationAnalysis) :
    postProcessLoop tt result =
      match postProcessStep tt result with
      | none => result
      | some result' => postProcessLoop tt result' := by
  rw [postProcessLoop]
  cases hstep : postProcessStep tt result <;> simp [hstep]

theorem postProcessStep_postProcessLoop (tt : KSKey → Int)
    (result : List ReplicationAnalysis) :
    postProcessStep tt (postProcessLoop tt result) = none := by
  have main : ∀ n result, List.length result ≤ n →
      postProcessStep tt (postProcessLoop tt result) = none := by
    intro n
    induction n with
    | zero =>
      intro result hlen
      have : result = [] := List.length_eq_zero.mp (Nat.le_zero.mp hlen)
      subst this
      rw [postProcessLoop_eq]
      rfl
    | succ n ih =>
      intro result hlen
      rw [postProcessLoop_eq]
      cases hstep : postProcessStep tt result with
      | none => simpa using hstep
      | some r' =>
        simp only
        apply ih
        have := postProcessStep_length_lt tt result r' hstep
        omega
  exact main result.length result le_rfl

/-- C7: the reconciler is idempotent — applying `postProcessAnalyses` a second
time to its own output changes no analysis code and removes no entry. -/
theorem postProcessAnalyses_idempotent (result : List ReplicationAnalysis)
    (clusters : KSKey → Option clusterAnalysis) :
    postProcessAnalyses (postProcessAnalyses result clusters) clusters =
      postProcessAnalyses result clusters := by
  unfold postProcessAnalyses
  conv_lhs => rw [postProcessLoop_eq]
  rw [postProcessStep_postProcessLoop]

theorem notReplicatingIdxsAux_append (ks sh : String)
    (xs ys : List ReplicationAnalysis) (s : Nat) :
    notReplicatingIdxsAux ks sh s (xs ++ ys) =
      notReplicatingIdxsAux ks sh s xs ++
        notReplicatingIdxsAux ks sh (s + xs.length) ys := by
  induction xs generalizing s with
  | nil => simp [notReplicatingIdxsAux]
  | cons x rest ih =>
    have harith : s + 1 + rest.length = s + (x :: rest).length := by
      simp only [List.length_cons]
      omega
    simp only [List.cons_append, notReplicatingIdxsAux, List.append_eq]
    split
    · rw [ih (s + 1), harith]
      simp
    · rw [ih (s + 1), harith]

theorem notReplicatingIdxsAux_all (ks sh : String)
    (xs : List ReplicationAnalysis) (s : Nat)
    (h : ∀ r ∈ xs, r.AnalyzedKeyspace = ks ∧ r.AnalyzedShard = sh ∧
      isReplicaType r.TabletType = true ∧
      (¬r.LastCheckValid = true ∨ r.ReplicationStopped = true)) :
    notReplicatingIdxsAux ks sh s xs = List.range' s xs.length := by
  induction xs generalizing s with
  | nil => rfl
  | cons x rest ih =>
    have hx := h x (List.mem_cons_self _ _)
    simp only [notReplicatingIdxsAux, if_pos hx, List.length_cons, List.range'_succ]
    congr 1
    exact ih (s + 1) (fun r hr => h r (List.mem_cons_of_mem _ hr))

theorem notReplicatingIdxsAux_length_le (ks sh : String)
    (xs : List ReplicationAnalysis) (s : Nat) :
    (notReplicatingIdxsAux ks sh s xs).length ≤ xs.length := by
  induction xs generalizing s with
  | nil => simp [notReplicatingIdxsAux]
  | cons x rest ih =>
    simp only [notReplicatingIdxsAux, List.length_cons]
    split
    · simpa using ih (s + 1)
    · exact le_trans (ih (s + 1)) (Nat.le_succ _)

theorem notReplicatingIdxsAux_length_lt (ks sh : String)
    (xs : List ReplicationAnalysis) (s : Nat) (x : ReplicationAnalysis)
    (hmem : x ∈ xs)
    (hfail : ¬(x.AnalyzedKeyspace = ks ∧ x.AnalyzedShard = sh ∧
      isReplicaType x.TabletType = true ∧
      (¬x.LastCheckValid = true ∨ x.ReplicationStopped = true))) :
    (notReplicatingIdxsAux ks sh s xs).length < xs.length := by
  induction xs generalizing s with
  | nil => simp at hmem
  | cons y rest ih =>
    rcases List.mem_cons.mp hmem with rfl | hmem'
    · simp only [notReplicatingIdxsAux, if_neg hfail, List.length_cons]
      exact Nat.lt_succ_of_le (notReplicatingIdxsAux_length_le ks sh rest (s + 1))
    · simp only [notReplicatingIdxsAux, List.length_cons]
      split
      · simpa using ih (s + 1) hmem'
      · exact Nat.lt_succ_of_le (Nat.le_of_lt (ih (s + 1) hmem'))

theorem removeIdxs_append (xs ys : List ReplicationAnalysis) (idxs : List Nat)
    (s : Nat) :
    removeIdxs (xs ++ ys) idxs s =
      removeIdxs xs idxs s ++ removeIdxs ys idxs (s + xs.length) := by
  induction xs generalizing s with
  | nil => simp [removeIdxs]
  | cons x rest ih =>
    have harith : s + 1 + rest.length = s + (x :: rest).length := by
      simp only [List.length_cons]
      omega
    simp only [List.cons_append, removeIdxs, List.append_eq]
    split
    · rw [ih (s + 1), harith]
    · rw [ih (s + 1), harith, List.cons_append]

theorem removeIdxs_all (xs : List ReplicationAnalysis) (idxs : List Nat) (s : Nat)
    (h : ∀ k, s ≤ k → k < s + xs.length → k ∈ idxs) :
    removeIdxs xs idxs s = [] := by
  induction xs generalizing s with
  | nil => rfl
  | cons x rest ih =>
    have hs : s ∈ idxs := h s le_rfl (by simp)
    simp only [removeIdxs, if_pos hs]
    refine ih (s + 1) (fun k hk1 hk2 => h k (by omega) ?_)
    simp only [List.length_cons]
    omega

theorem setAnalysis_append (xs zs : List ReplicationAnalysis)
    (y : ReplicationAnalysis) (code : AnalysisCode) :
    setAnalysis (xs ++ y :: zs) xs.length code =
      xs ++ ({ y with Analysis := code }) :: zs := by
  induction xs with
  | nil => rfl
  | cons x rest ih => simpa [setAnalysis] using ih

theorem findUpgrade_none_of_no_invalid (tt : KSKey → Int)
    (full sub : List ReplicationAnalysis) (j : Nat)
    (h : ∀ r ∈ sub, r.Analysis ≠ AnalysisCode.InvalidPrimary) :
    findUpgrade tt full j sub = none := by
  induction sub generalizing j with
  | nil => rfl
  | cons r rest ih =>
    have hr := h r (List.mem_cons_self _ _)
    simp only [findUpgrade, if_neg hr]
    exact ih (j + 1) (fun r hr' => h r (List.mem_cons_of_mem _ hr'))

theorem findUpgrade_append (tt : KSKey → Int)
    (full pre rest : List ReplicationAnalysis) (j : Nat)
    (h : ∀ r ∈ pre, r.Analysis ≠ AnalysisCode.InvalidPrimary) :
    findUpgrade tt full j (pre ++ rest) = findUpgrade tt full (j + pre.length) rest := by
  induction pre generalizing j with
  | nil => simp
  | cons r pre' ih =>
    have hr := h r (List.mem_cons_self _ _)
    have harith : j + 1 + pre'.length = j + (r :: pre').length := by
      simp only [List.length_cons]
      omega
    simp only [List.cons_append, findUpgrade, if_neg hr, List.append_eq]
    rw [ih (j + 1) (fun r hr' => h r (List.mem_cons_of_mem _ hr')), harith]

/-- C3: for a result set holding one `InvalidPrimary` analysis of a shard
together with the shard's replica-type analyses, if every one of those replicas
has an invalid last check or stopped replication — and their number equals the
shard's total tablet count minus one — the reconciler upgrades the primary to
`DeadPrimary` and removes all the replica analyses; if even one replica is
healthy, the result set is returned unchanged. -/
theorem postProcessAnalyses_deadPrimary_reconciliation
    (clusters : KSKey → Option clusterAnalysis) (ks sh : String)
    (p : ReplicationAnalysis) (pre post : List ReplicationAnalysis)
    (hp_code : p.Analysis = AnalysisCode.InvalidPrimary)
    (hp_type : p.TabletType = TabletType.PRIMARY)
    (hpks : p.AnalyzedKeyspace = ks) (hpsh : p.AnalyzedShard = sh)
    (hreps : ∀ r ∈ pre ++ post, r.AnalyzedKeyspace = ks ∧ r.AnalyzedShard = sh ∧
      isReplicaType r.TabletType = true ∧ r.Analysis ≠ AnalysisCode.InvalidPrimary)
    (htot : (clusters (ks, sh)).map (fun ca => ca.totalTablets) =
      some (pre.length + post.length + 1)) :
    ((∀ r ∈ pre ++ post, ¬r.LastCheckValid = true ∨ r.ReplicationStopped = true) →
      0 < pre.length + post.length →
      postProcessAnalyses (pre ++ p :: post) clusters =
        [{ p with Analysis := AnalysisCode.DeadPrimary }]) ∧
    ((∃ r ∈ pre ++ post, r.LastCheckValid = true ∧ r.ReplicationStopped = false) →
      postProcessAnalyses (pre ++ p :: post) clusters = pre ++ p :: post) := by
  unfold postProcessAnalyses
  set tt := fun key : KSKey =>
    ((clusters key).map (fun ca => (ca.totalTablets : Int))).getD 0 with htt_def
  have hprep : ∀ r ∈ pre, r.AnalyzedKeyspace = ks ∧ r.AnalyzedShard = sh ∧
      isReplicaType r.TabletType = true ∧ r.Analysis ≠ AnalysisCode.InvalidPrimary :=
    fun r hr => hreps r (List.mem_append_left _ hr)
  have hpostp : ∀ r ∈ post, r.AnalyzedKeyspace = ks ∧ r.AnalyzedShard = sh ∧
      isReplicaType r.TabletType = true ∧ r.Analysis ≠ AnalysisCode.InvalidPrimary :=
    fun r hr => hreps r (List.mem_append_right _ hr)
  have hpfail : ¬(p.AnalyzedKeyspace = ks ∧ p.AnalyzedShard = sh ∧
      isReplicaType p.TabletType = true ∧
      (¬p.LastCheckValid = true ∨ p.ReplicationStopped = true)) := by
    intro hcon
    have := hcon.2.2.1
    rw [hp_type] at this
    simp [isReplicaType] at this
  have htt : tt (ks, sh) = ((pre.length + post.length + 1 : Nat) : Int) := by
    cases hc : clusters (ks, sh) with
    | none => rw [hc] at htot; simp at htot
    | some ca =>
      rw [hc] at htot
      simp at htot
      simp [htt_def, hc, htot]
  constructor
  · intro hdead hn
    have hallpre : ∀ r ∈ pre, r.AnalyzedKeyspace = ks ∧ r.AnalyzedShard = sh ∧
        isReplicaType r.TabletType = true ∧
        (¬r.LastCheckValid = true ∨ r.ReplicationStopped = true) :=
      fun r hr => ⟨(hprep r hr).1, (hprep r hr).2.1, (hprep r hr).2.2.1,
        hdead r (List.mem_append_left _ hr)⟩
    have hallpost : ∀ r ∈ post, r.AnalyzedKeyspace = ks ∧ r.AnalyzedShard = sh ∧
        isReplicaType r.TabletType = true ∧
        (¬r.LastCheckValid = true ∨ r.ReplicationStopped = true) :=
      fun r hr => ⟨(hpostp r hr).1, (hpostp r hr).2.1, (hpostp r hr).2.2.1,
        hdead r (List.mem_append_right _ hr)⟩
    have hidxs : notReplicatingIdxsAux ks sh 0 (pre ++ p :: post) =
        List.range' 0 pre.length ++ List.range' (pre.length + 1) post.length := by
      rw [notReplicatingIdxsAux_append, notReplicatingIdxsAux_all ks sh pre 0 hallpre]
      have hcons : notReplicatingIdxsAux ks sh (0 + pre.length) (p :: post) =
          List.range' (pre.length + 1) post.length := by
        rw [Nat.zero_add]
        simp only [notReplicatingIdxsAux, if_neg hpfail]
        exact notReplicatingIdxsAux_all ks sh post (pre.length + 1) hallpost
      rw [hcons]
    have hlen : (notReplicatingIdxsAux ks sh 0 (pre ++ p :: post)).length =
        pre.length + post.length := by
      rw [hidxs]
      simp [List.length_append]
    have hcond : 0 < tt (p.AnalyzedKeyspace, p.AnalyzedShard) - 1 ∧
        ((notReplicatingIdxsAux p.AnalyzedKeyspace p.AnalyzedShard 0
            (pre ++ p :: post)).length : Int) =
          tt (p.AnalyzedKeyspace, p.AnalyzedShard) - 1 := by
      rw [hpks, hpsh, htt, hlen]
      constructor <;> push_cast <;> omega
    have hfu : findUpgrade tt (pre ++ p :: post) 0 (pre ++ p :: post) =
        some (pre.length,
          notReplicatingIdxsAux p.AnalyzedKeyspace p.AnalyzedShard 0 (pre ++ p :: post)) := by
      rw [findUpgrade_append tt _ pre _ 0 (fun r hr => (hprep r hr).2.2.2)]
      simp only [findUpgrade, if_pos hp_code, if_pos hcond, Nat.zero_add]
    have hstep : postProcessStep tt (pre ++ p :: post) =
        some [{ p with Analysis := AnalysisCode.DeadPrimary }] := by
      unfold postProcessStep
      rw [hfu]
      show some (removeIdxs
          (setAnalysis (pre ++ p :: post) pre.length AnalysisCode.DeadPrimary)
          (notReplicatingIdxsAux p.AnalyzedKeyspace p.AnalyzedShard 0 (pre ++ p :: post)) 0) = _
      congr 1
      rw [setAnalysis_append, hpks, hpsh, hidxs, removeIdxs_append]
      have h1 : removeIdxs pre
          (List.range' 0 pre.length ++ List.range' (pre.length + 1) post.length) 0 = [] := by
        refine removeIdxs_all _ _ 0 (fun k hk1 hk2 => List.mem_append_left _ ?_)
        exact List.mem_range'_1.mpr ⟨hk1, by simpa using hk2⟩
      have h2 : pre.length ∉
          (List.range' 0 pre.length ++ List.range' (pre.length + 1) post.length) := by
        intro hmem
        rcases List.mem_append.mp hmem with h | h <;>
          · have := List.mem_range'_1.mp h
            omega
      rw [h1, List.nil_append, Nat.zero_add]
      simp only [removeIdxs, if_neg h2]
      rw [removeIdxs_all post _ (pre.length + 1) (fun k hk1 hk2 =>
        List.mem_append_right _ (List.mem_range'_1.mpr ⟨hk1, by simpa using hk2⟩))]
    rw [postProcessLoop_eq, hstep]
    simp only
    rw [postProcessLoop_eq]
    have hfix : postProcessStep tt [{ p with Analysis := AnalysisCode.DeadPrimary }] = none := by
      unfold postProcessStep
      rw [findUpgrade_none_of_no_invalid tt _ _ 0 ?_]
      intro r hr
      simp only [List.mem_singleton] at hr
      subst hr
      simp
    rw [hfix]
  · rintro ⟨r0, hr0mem, hr0valid, hr0run⟩
    have hr0fail : ¬(r0.AnalyzedKeyspace = ks ∧ r0.AnalyzedShard = sh ∧
        isReplicaType r0.TabletType = true ∧
        (¬r0.LastCheckValid = true ∨ r0.ReplicationStopped = true)) := by
      rintro ⟨-, -, -, h | h⟩
      · exact h hr0valid
      · rw [hr0run] at h
        exact Bool.false_ne_true h
    have hauxsplit : (notReplicatingIdxsAux ks sh 0 (pre ++ p :: post)).length =
        (notReplicatingIdxsAux ks sh 0 pre).length +
          (notReplicatingIdxsAux ks sh (pre.length + 1) post).length := by
      rw [notReplicatingIdxsAux_append]
      simp only [List.length_append, Nat.zero_add, notReplicatingIdxsAux, if_neg hpfail]
    have hlenlt : (notReplicatingIdxsAux ks sh 0 (pre ++ p :: post)).length <
        pre.length + post.length := by
      rcases List.mem_append.mp hr0mem with hpre0 | hpost0
      · have hlt := notReplicatingIdxsAux_length_lt ks sh pre 0 r0 hpre0 hr0fail
        have hle := notReplicatingIdxsAux_length_le ks sh post (pre.length + 1)
        omega
      · have hle := notReplicatingIdxsAux_length_le ks sh pre 0
        have hlt := notReplicatingIdxsAux_length_lt ks sh post (pre.length + 1) r0 hpost0 hr0fail
        omega
    have hcondfail : ¬(0 < tt (p.AnalyzedKeyspace, p.AnalyzedShard) - 1 ∧
        ((notReplicatingIdxsAux p.AnalyzedKeyspace p.AnalyzedShard 0
            (pre ++ p :: post)).length : Int) =
          tt (p.AnalyzedKeyspace, p.AnalyzedShard) - 1) := by
      rw [hpks, hpsh, htt]
      rintro ⟨h1, h2⟩
      push_cast at h2
      omega
    have hstepB : postProcessStep tt (pre ++ p :: post) = none := by
      unfold postProcessStep
      rw [findUpgrade_append tt _ pre _ 0 (fun r hr => (hprep r hr).2.2.2)]
      simp only [findUpgrade, if_pos hp_code, if_neg hcondfail, Nat.zero_add]
      rw [findUpgrade_none_of_no_invalid tt _ post (pre.length + 1)
        (fun r hr => (hpostp r hr).2.2.2)]
    rw [postProcessLoop_eq, hstepB]

/-- An `InvalidPrimary` analysis of shard `ks/0`, for concrete instantiations. -/
def invalidPrimaryRA : ReplicationAnalysis :=
  { AnalyzedInstanceAlias := "zone1-0000000100"
    AnalyzedInstancePrimaryAlias := ""
    AnalyzedKeyspace := "ks"
    AnalyzedShard := "0"
    TabletType := TabletType.PRIMARY
    IsPrimary := true
    IsClusterPrimary := true
    LastCheckValid := false
    ReplicationStopped := false
    Analysis := AnalysisCode.InvalidPrimary
    StructureAnalysis := [] }

/-- A replica analysis of the same shard with an invalid last check. -/
def deadReplicaRA : ReplicationAnalysis :=
  { invalidPrimaryRA with
    AnalyzedInstanceAlias := "zone1-0000000001"
    TabletType := TabletType.REPLICA
    IsPrimary := false
    IsClusterPrimary := false
    Analysis := AnalysisCode.InvalidReplica }

/-- A second not-replicating replica analysis (replication stopped). -/
def stoppedReplicaRA : ReplicationAnalysis :=
  { deadReplicaRA with
    AnalyzedInstanceAlias := "zone1-0000000002"
    LastCheckValid := true
    ReplicationStopped := true
    Analysis := AnalysisCode.ReplicationStopped }

/-- A healthy replica analysis of the same shard. -/
def healthyReplicaRA : ReplicationAnalysis :=
  { deadReplicaRA with
    AnalyzedInstanceAlias := "zone1-0000000003"
    LastCheckValid := true
    ReplicationStopped := false
    Analysis := AnalysisCode.ReplicaIsWritable }

/-- A clusters map putting three tablets in shard `ks/0`. -/
def testClusters : KSKey → Option clusterAnalysis := fun key =>
  if key = ("ks", "0") then
    some { hasShardWideAction := false, totalTablets := 3,
           primaryAlias := "zone1-0000000100", durability := none }
  else none

/-- Witness for C3 at a three-tablet shard: with both replicas not replicating
the reconciler collapses the result to one `DeadPrimary` analysis; with one
healthy replica it changes nothing. -/
theorem postProcessAnalyses_deadPrimary_reconciliation_witness :
    postProcessAnalyses [deadReplicaRA, invalidPrimaryRA, stoppedReplicaRA] testClusters =
      [{ invalidPrimaryRA with Analysis := AnalysisCode.DeadPrimary }] ∧
    postProcessAnalyses [deadReplicaRA, invalidPrimaryRA, healthyReplicaRA] testClusters =
      [deadReplicaRA, invalidPrimaryRA, healthyReplicaRA] := by
  constructor
  · exact (postProcessAnalyses_deadPrimary_reconciliation testClusters "ks" "0"
      invalidPrimaryRA [deadReplicaRA] [stoppedReplicaRA] rfl rfl rfl rfl
      (by decide) (by decide)).1 (by decide) (by decide)
  · exact (postProcessAnalyses_deadPrimary_reconciliation testClusters "ks" "0"
      invalidPrimaryRA [deadReplicaRA] [healthyReplicaRA] rfl rfl rfl rfl
      (by decide) (by decide)).2
      ⟨healthyReplicaRA, List.mem_append_right _ (List.mem_singleton.mpr rfl), rfl, rfl⟩

theorem mapSet_same {α β : Type} [DecidableEq α] (f : α → Option β) (k : α) (v : β) :
    mapSet f k v k = some v := by
  simp [mapSet]

theorem mapSet_other {α β : Type} [DecidableEq α] (f : α → Option β) (k x : α) (v : β)
    (h : x ≠ k) : mapSet f k v x = f x := by
  simp [mapSet, h]

/-- The shard-wide-count invariant carried through the pass: every shard has at
most one shard-wide analysis in the accumulated result, and none before its
`hasShardWideAction` flag is set. -/
def shardWideInv (st : PassState) : Prop :=
  ∀ key : KSKey, countShardWide st.result key ≤ 1 ∧
    (flagOf st key = false → countShardWide st.result key = 0)

theorem countShardWide_append (res : List ReplicationAnalysis)
    (a : ReplicationAnalysis) (key : KSKey) :
    countShardWide (res ++ [a]) key =
      countShardWide res key +
        (if a.AnalyzedKeyspace = key.1 ∧ a.AnalyzedShard = key.2 ∧
            isShardWideCode a.Analysis = true then 1 else 0) := by
  simp only [countShardWide, List.countP_append, List.countP_cons, List.countP_nil,
    Nat.zero_add, Bool.and_eq_true, decide_eq_true_eq, and_assoc]

theorem continueRow_shardWideInv (st : PassState) (key : KSKey) (ca : clusterAnalysis)
    (row : Row) (tablet primaryTablet : Tablet) (isCP : Bool)
    (hkey : key = (row.keyspace, row.shard))
    (hflag : flagOf st key = ca.hasShardWideAction)
    (hinv : shardWideInv st) :
    shardWideInv (continueRow st key ca row tablet primaryTablet isCP) := by
  intro k
  unfold continueRow
  by_cases hfl : ca.hasShardWideAction = true
  · simp only [hfl, if_pos]
    by_cases hk : k = key
    · subst hk
      refine ⟨(hinv k).1, ?_⟩
      intro hfk
      exact absurd hfk (by simp [flagOf, mapSet_same, hfl])
    · refine ⟨(hinv k).1, ?_⟩
      intro hfk
      refine (hinv k).2 ?_
      simpa [flagOf, mapSet_other st.clusters key k _ hk] using hfk
  · have hflfalse : ca.hasShardWideAction = false := by
      simpa using hfl
    simp only [hflfalse, Bool.false_eq_true, if_false]
    cases hdur : ca.durability with
    | none =>
      by_cases hk : k = key
      · subst hk
        refine ⟨(hinv k).1, fun _ => (hinv k).2 (hflag.trans hflfalse)⟩
      · refine ⟨(hinv k).1, ?_⟩
        intro hfk
        refine (hinv k).2 ?_
        simpa [flagOf, mapSet_other st.clusters key k _ hk] using hfk
    | some dur =>
      simp only
      set c := classify dur ca.primaryAlias isCP tablet primaryTablet row with hc
      set warnings := structureChecks row with hw
      set a := mkReplicationAnalysis row tablet primaryTablet isCP c.1 warnings with ha
      have hcount0 : countShardWide st.result key = 0 :=
        (hinv key).2 (hflag.trans hflfalse)
      by_cases hsupp : c.1 = AnalysisCode.NoProblem ∧ warnings = []
      · simp only [if_pos hsupp]
        by_cases hk : k = key
        · subst hk
          exact ⟨(hinv k).1, fun _ => hcount0⟩
        · refine ⟨(hinv k).1, ?_⟩
          intro hfk
          refine (hinv k).2 ?_
          simpa [flagOf, mapSet_other st.clusters key k _ hk] using hfk
      · simp only [if_neg hsupp]
        have hakey : a.AnalyzedKeyspace = row.keyspace ∧ a.AnalyzedShard = row.shard := by
          simp [ha, mkReplicationAnalysis]
        have hacode : a.Analysis = c.1 := by
          simp [ha, mkReplicationAnalysis]
        by_cases hk : k = key
        · subst hk
          rw [countShardWide_append]
          cases hsw : c.2 with
          | true =>
            refine ⟨?_, ?_⟩
            · split <;> omega
            · intro hfk
              exact absurd hfk (by simp [flagOf, mapSet_same, hsw])
          | false =>
            have hnotsw : isShardWideCode a.Analysis = false := by
              rw [hacode, ← classify_flag_eq dur ca.primaryAlias isCP tablet primaryTablet row,
                ← hc, hsw]
            rw [if_neg (by simp [hnotsw])]
            exact ⟨by omega, fun _ => by omega⟩
        · rw [countShardWide_append]
          have hpredfalse :
              ¬(a.AnalyzedKeyspace = k.1 ∧ a.AnalyzedShard = k.2 ∧
                isShardWideCode a.Analysis = true) := by
            rintro ⟨h1, h2, -⟩
            apply hk
            have : k = (k.1, k.2) := rfl
            rw [this, ← h1, ← h2, hakey.1, hakey.2, hkey]
          rw [if_neg hpredfalse, Nat.add_zero]
          refine ⟨(hinv k).1, ?_⟩
          intro hfk
          refine (hinv k).2 ?_
          simpa [flagOf, mapSet_other st.clusters key k _ hk] using hfk

theorem processRow_shardWideInv (resolve : String → Option Durabler)
    (st : PassState) (row : Row) (hinv : shardWideInv st) :
    shardWideInv (processRow resolve st row) := by
  unfold processRow
  cases htab : row.tabletInfo with
  | none => exact hinv
  | some tablet =>
    simp only
    split
    · exact hinv
    · cases hpt : parsePrimaryTablet row.primaryTabletInfo with
      | none => exact hinv
      | some primaryTablet =>
        simp only
        split
        · exact hinv
        · cases hclu : st.clusters (row.keyspace, row.shard) with
          | none =>
            simp only
            cases hres : resolveDurability resolve row.durabilityPolicy with
            | none =>
              intro k
              by_cases hk : k = (row.keyspace, row.shard)
              · subst hk
                exact ⟨(hinv (row.keyspace, row.shard)).1,
                  fun _ => (hinv (row.keyspace, row.shard)).2 (by simp [flagOf, hclu])⟩
              · refine ⟨(hinv k).1, ?_⟩
                intro hfk
                refine (hinv k).2 ?_
                simpa [flagOf, mapSet_other st.clusters _ k _ hk] using hfk
            | some dur =>
              refine continueRow_shardWideInv st (row.keyspace, row.shard) _ row tablet
                primaryTablet _ rfl ?_ hinv
              simp [flagOf, hclu]
          | some ca =>
            exact continueRow_shardWideInv st (row.keyspace, row.shard) ca row tablet
              primaryTablet false rfl (by simp [flagOf, hclu]) hinv

theorem foldl_processRow_shardWideInv (resolve : String → Option Durabler)
    (rows : List Row) (st : PassState) (hinv : shardWideInv st) :
    shardWideInv (rows.foldl (processRow resolve) st) := by
  induction rows generalizing st with
  | nil => exact hinv
  | cons row rest ih =>
    exact ih (processRow resolve st row) (processRow_shardWideInv resolve st row hinv)

/-- C2: within one classification pass, at most one row of any shard is
assigned a shard-wide analysis code — once some row of a shard records a
shard-wide action, no later row of the same shard is assigned any shard-wide
code in that pass. -/
theorem runPass_at_most_one_shard_wide (resolve : String → Option Durabler)
    (rows : List Row) (key : KSKey) :
    countShardWide (runPass resolve rows).result key ≤ 1 := by
  refine (foldl_processRow_shardWideInv resolve rows
    { clusters := fun _ => none, result := [] } ?_ key).1
  intro k
  exact ⟨by simp [countShardWide], fun _ => by simp [countShardWide]⟩

/-- Counterexample to C5 as stated: in a pass over a shard whose first row sets
a shard-wide code (`DeadPrimaryWithoutReplicas`), the later writable-replica
row of the same shard produces no output entry at all, although its
instance-scoped classification (second conjunct) is `ReplicaIsWritable` — the
shard-wide flag does change (indeed suppresses) the instance-scoped code a
later row receives. -/
theorem shardWideFlag_suppresses_instance_codes_counterexample :
    (runPass testResolve [deadPrimaryRow, writableReplicaRow]).result.map
        (fun a => (a.AnalyzedInstanceAlias, a.Analysis)) =
      [("zone1-0000000100", AnalysisCode.DeadPrimaryWithoutReplicas)] ∧
    (classify testDurabler "zone1-0000000100" false
        { tabletAlias := "zone1-0000000001", ttype := TabletType.REPLICA }
        Tablet.empty writableReplicaRow).1 = AnalysisCode.ReplicaIsWritable := by
  exact ⟨rfl, rfl⟩

/-- C5 (amended): once a shard's `hasShardWideAction` flag is set, a row of
that shard evaluated later in the pass is not classified at all — the row
callback returns right after the `totalTablets` increment (lines 397-400), so
the row contributes no analysis entry, instance-scoped or shard-wide. -/
theorem processRow_after_shard_wide (resolve : String → Option Durabler)
    (st : PassState) (row : Row) (ca : clusterAnalysis)
    (hca : st.clusters (row.keyspace, row.shard) = some ca)
    (hflag : ca.hasShardWideAction = true) :
    (processRow resolve st row).result = st.result := by
  unfold processRow
  cases htab : row.tabletInfo with
  | none => rfl
  | some tablet =>
    simp only
    split
    · rfl
    · cases hpt : parsePrimaryTablet row.primaryTabletInfo with
      | none => rfl
      | some primaryTablet =>
        simp only
        split
        · rfl
        · rw [hca]
          simp only [continueRow, hflag, if_pos]

/-- Witness for the amended C5: after the dead-primary row sets the shard-wide
flag, processing the writable-replica row leaves the result unchanged. -/
theorem processRow_after_shard_wide_witness :
    (processRow testResolve (runPass testResolve [deadPrimaryRow])
        writableReplicaRow).result =
      (runPass testResolve [deadPrimaryRow]).result := by
  exact processRow_after_shard_wide testResolve _ writableReplicaRow
    { hasShardWideAction := true, totalTablets := 1,
      primaryAlias := "zone1-0000000100", durability := some testDurabler }
    rfl rfl

/-- A row that survives the three skip checks of the row callback (decodable
tablet payload of primary or replica type, decodable primary-tablet payload,
non-snapshot keyspace) and therefore reaches the shard bookkeeping. -/
def rowConsumed (row : Row) : Bool :=
  match row.tabletInfo with
  | none => false
  | some t =>
    (decide (t.ttype = TabletType.PRIMARY) || isReplicaType t.ttype) &&
      (parsePrimaryTablet row.primaryTabletInfo).isSome && !row.isSnapshotKeyspace

/-- The primary alias recorded by the first-row bookkeeping: the row's tablet
alias when its type is `PRIMARY`, empty otherwise. -/
def rowPrimaryAliasIfPrimary (row : Row) : String :=
  match row.tabletInfo with
  | some t => if t.ttype = TabletType.PRIMARY then t.tabletAlias else ""
  | none => ""

theorem continueRow_clusters_key (st : PassState) (key : KSKey)
    (ca : clusterAnalysis) (row : Row) (tablet primaryTablet : Tablet)
    (isCP : Bool) :
    ∃ flag', (continueRow st key ca row tablet primaryTablet isCP).clusters key =
      some { hasShardWideAction := flag', totalTablets := ca.totalTablets + 1,
             primaryAlias := ca.primaryAlias, durability := ca.durability } := by
  unfold continueRow
  by_cases hfl : ca.hasShardWideAction = true
  · exact ⟨true, by simp [hfl, mapSet]⟩
  · have hfl' : ca.hasShardWideAction = false := by simpa using hfl
    cases hdur : ca.durability with
    | none => exact ⟨false, by simp [hfl', hdur, mapSet]⟩
    | some dur =>
      by_cases hsw :
          (classify dur ca.primaryAlias isCP tablet primaryTablet row).2 = true
      · exact ⟨true, by simp [hfl', hdur, hsw, mapSet]⟩
      · have hsw' :
            (classify dur ca.primaryAlias isCP tablet primaryTablet row).2 = false := by
          simpa using hsw
        exact ⟨false, by simp [hfl', hdur, hsw', mapSet]⟩

theorem continueRow_clusters_other (st : PassState) (key k : KSKey)
    (ca : clusterAnalysis) (row : Row) (tablet primaryTablet : Tablet)
    (isCP : Bool) (hk : k ≠ key) :
    (continueRow st key ca row tablet primaryTablet isCP).clusters k =
      st.clusters k := by
  unfold continueRow
  by_cases hfl : ca.hasShardWideAction = true
  · simp [hfl, mapSet, hk]
  · have hfl' : ca.hasShardWideAction = false := by simpa using hfl
    cases hdur : ca.durability with
    | none => simp [hfl', hdur, mapSet, hk]
    | some dur =>
      by_cases hsw :
          (classify dur ca.primaryAlias isCP tablet primaryTablet row).2 = true
      · simp [hfl', hdur, hsw, mapSet, hk]
      · have hsw' :
            (classify dur ca.primaryAlias isCP tablet primaryTablet row).2 = false := by
          simpa using hsw
        simp [hfl', hdur, hsw', mapSet, hk]

theorem processRow_clusters_other (resolve : String → Option Durabler)
    (st : PassState) (row : Row) (k : KSKey)
    (hk : k ≠ (row.keyspace, row.shard)) :
    (processRow resolve st row).clusters k = st.clusters k := by
  unfold processRow
  cases htab : row.tabletInfo with
  | none => rfl
  | some tablet =>
    simp only
    split
    · rfl
    · cases hpt : parsePrimaryTablet row.primaryTabletInfo with
      | none => rfl
      | some primaryTablet =>
        simp only
        split
        · rfl
        · cases hclu : st.clusters (row.keyspace, row.shard) with
          | none =>
            cases hres : resolveDurability resolve row.durabilityPolicy with
            | none => exact mapSet_other st.clusters _ k _ hk
            | some dur => exact continueRow_clusters_other st _ k _ row tablet primaryTablet _ hk
          | some ca => exact continueRow_clusters_other st _ k ca row tablet primaryTablet false hk

theorem processRow_not_consumed (resolve : String → Option Durabler)
    (st : PassState) (row : Row) (h : rowConsumed row = false) :
    processRow resolve st row = st := by
  unfold processRow
  cases htab : row.tabletInfo with
  | none => rfl
  | some tablet =>
    simp only
    split
    · rfl
    · rename_i hty
      cases hpt : parsePrimaryTablet row.primaryTabletInfo with
      | none => rfl
      | some primaryTablet =>
        simp only
        split
        · rfl
        · rename_i hsnap
          exfalso
          have hcons : rowConsumed row = true := by
            unfold rowConsumed
            rw [htab]
            have hsnap' : row.isSnapshotKeyspace = false := by simpa using hsnap
            by_cases hP : tablet.ttype = TabletType.PRIMARY
            · simp [hP, hpt, hsnap']
            · have hrep : isReplicaType tablet.ttype = true := by
                by_contra hrep
                exact hty ⟨hP, by simpa using hrep⟩
              simp [hrep, hpt, hsnap']
          rw [h] at hcons
          exact Bool.false_ne_true hcons

theorem processRow_existing (resolve : String → Option Durabler)
    (st : PassState) (row : Row) (ca : clusterAnalysis)
    (hcons : rowConsumed row = true)
    (hca : st.clusters (row.keyspace, row.shard) = some ca) :
    ∃ flag', (processRow resolve st row).clusters (row.keyspace, row.shard) =
      some { hasShardWideAction := flag', totalTablets := ca.totalTablets + 1,
             primaryAlias := ca.primaryAlias, durability := ca.durability } := by
  unfold processRow
  unfold rowConsumed at hcons
  cases htab : row.tabletInfo with
  | none => rw [htab] at hcons; simp at hcons
  | some tablet =>
    rw [htab] at hcons
    simp only [Bool.and_eq_true, Bool.or_eq_true, decide_eq_true_eq,
      Bool.not_eq_true', Option.isSome_iff_exists] at hcons
    simp only
    split
    · rename_i hty
      exfalso
      rcases hcons.1.1 with h | h
      · exact hty.1 h
      · exact hty.2 h
    · cases hpt : parsePrimaryTablet row.primaryTabletInfo with
      | none =>
        obtain ⟨pt, hpt'⟩ := hcons.1.2
        rw [hpt] at hpt'
        exact absurd hpt' (by simp)
      | some primaryTablet =>
        simp only
        split
        · rename_i hsnap
          rw [hcons.2] at hsnap
          simp at hsnap
        · rw [hca]
          exact continueRow_clusters_key st _ ca row tablet primaryTablet false

theorem processRow_first (resolve : String → Option Durabler)
    (st : PassState) (row : Row)
    (hcons : rowConsumed row = true)
    (hnone : st.clusters (row.keyspace, row.shard) = none) :
    ∃ flag', (processRow resolve st row).clusters (row.keyspace, row.shard) =
      some { hasShardWideAction := flag',
             totalTablets :=
               if (resolveDurability resolve row.durabilityPolicy).isSome then 1 else 0,
             primaryAlias := rowPrimaryAliasIfPrimary row,
             durability := resolveDurability resolve row.durabilityPolicy } := by
  unfold processRow
  unfold rowConsumed at hcons
  cases htab : row.tabletInfo with
  | none => rw [htab] at hcons; simp at hcons
  | some tablet =>
    rw [htab] at hcons
    simp only [Bool.and_eq_true, Bool.or_eq_true, decide_eq_true_eq,
      Bool.not_eq_true', Option.isSome_iff_exists] at hcons
    have hpa : rowPrimaryAliasIfPrimary row =
        if tablet.ttype = TabletType.PRIMARY then tablet.tabletAlias else "" := by
      unfold rowPrimaryAliasIfPrimary
      rw [htab]
    simp only
    split
    · rename_i hty
      exfalso
      rcases hcons.1.1 with h | h
      · exact hty.1 h
      · exact hty.2 h
    · cases hpt : parsePrimaryTablet row.primaryTabletInfo with
      | none =>
        obtain ⟨pt, hpt'⟩ := hcons.1.2
        rw [hpt] at hpt'
        exact absurd hpt' (by simp)
      | some primaryTablet =>
        simp only
        split
        · rename_i hsnap
          rw [hcons.2] at hsnap
          simp at hsnap
        · rw [hnone]
          cases hres : resolveDurability resolve row.durabilityPolicy with
          | none =>
            refine ⟨false, ?_⟩
            rw [hpa]
            simp [mapSet]
          | some dur =>
            obtain ⟨flag', hkey⟩ := continueRow_clusters_key st (row.keyspace, row.shard)
              { hasShardWideAction := false, totalTablets := 0,
                primaryAlias := if tablet.ttype = TabletType.PRIMARY then tablet.tabletAlias else "",
                durability := some dur }
              row tablet primaryTablet (tablet.ttype = TabletType.PRIMARY)
            refine ⟨flag', ?_⟩
            rw [hpa]
            simpa using hkey

theorem processRow_preserves_entry (resolve : String → Option Durabler)
    (st : PassState) (row : Row) (key : KSKey) (ca : clusterAnalysis)
    (hca : st.clusters key = some ca) :
    ∃ ca', (processRow resolve st row).clusters key = some ca' ∧
      ca'.primaryAlias = ca.primaryAlias := by
  by_cases hk : key = (row.keyspace, row.shard)
  · subst hk
    by_cases hcons : rowConsumed row = true
    · obtain ⟨flag', h⟩ := processRow_existing resolve st row ca hcons hca
      exact ⟨_, h, rfl⟩
    · rw [processRow_not_consumed resolve st row (by simpa using hcons)]
      exact ⟨ca, hca, rfl⟩
  · rw [processRow_clusters_other resolve st row key hk]
    exact ⟨ca, hca, rfl⟩

theorem foldl_clusters_existing (resolve : String → Option Durabler)
    (rows : List Row) (st : PassState) (key : KSKey) (ca : clusterAnalysis)
    (hall : ∀ r ∈ rows, rowConsumed r = true ∧ (r.keyspace, r.shard) = key)
    (hca : st.clusters key = some ca) :
    ∃ ca', (rows.foldl (processRow resolve) st).clusters key = some ca' ∧
      ca'.totalTablets = ca.totalTablets + rows.length ∧
      ca'.primaryAlias = ca.primaryAlias := by
  induction rows generalizing st ca with
  | nil => exact ⟨ca, hca, rfl, rfl⟩
  | cons r rest ih =>
    obtain ⟨hc, hk⟩ := hall r (List.mem_cons_self _ _)
    obtain ⟨flag', h1⟩ := processRow_existing resolve st r ca hc (by rw [hk]; exact hca)
    rw [hk] at h1
    obtain ⟨ca', h2, h3, h4⟩ := ih (processRow resolve st r) _
      (fun r' hr' => hall r' (List.mem_cons_of_mem _ hr')) h1
    refine ⟨ca', h2, ?_, h4⟩
    rw [h3]
    simp only [List.length_cons]
    omega

/-- Counterexample to C9 as stated: a shard consuming two rows under a failing
durability-policy resolver finishes the pass with `totalTablets = 1`, not 2 —
the early return on resolution failure precedes the increment for the shard's
first row.  With a resolvable policy the same two rows are counted as 2. -/
theorem totalTablets_policy_failure_counterexample :
    ((runPass failResolve [baseRow, writableReplicaRow]).clusters ("ks", "0")).map
        (fun ca => ca.totalTablets) = some 1 ∧
    ((runPass testResolve [baseRow, writableReplicaRow]).clusters ("ks", "0")).map
        (fun ca => ca.totalTablets) = some 2 := by
  exact ⟨rfl, rfl⟩

/-- C9 (amended): for a shard whose rows all survive the skip checks,
`totalTablets` at end of pass equals the number of rows seen when the first
row's durability policy resolves, and the number of rows seen minus one when it
is missing or fails to resolve (the early return precedes the increment for
that first row). -/
theorem runPass_totalTablets (resolve : String → Option Durabler)
    (r0 : Row) (rest : List Row) (key : KSKey)
    (hall : ∀ r ∈ r0 :: rest, rowConsumed r = true ∧ (r.keyspace, r.shard) = key) :
    ((runPass resolve (r0 :: rest)).clusters key).map (fun ca => ca.totalTablets) =
      some (if (resolveDurability resolve r0.durabilityPolicy).isSome
            then rest.length + 1 else rest.length) := by
  obtain ⟨hc0, hk0⟩ := hall r0 (List.mem_cons_self _ _)
  unfold runPass
  rw [List.foldl_cons]
  obtain ⟨flag', h1⟩ := processRow_first resolve
    { clusters := fun _ => none, result := [] } r0 hc0 rfl
  rw [hk0] at h1
  obtain ⟨ca', h2, h3, -⟩ := foldl_clusters_existing resolve rest _ key _
    (fun r' hr' => hall r' (List.mem_cons_of_mem _ hr')) h1
  rw [h2]
  show some ca'.totalTablets = _
  congr 1
  rw [h3]
  cases hres : (resolveDurability resolve r0.durabilityPolicy).isSome <;> simp [hres] <;> omega

/-- Witness for the amended C9: the two-row shard under the resolving policy is
counted as 2. -/
theorem runPass_totalTablets_witness :
    ((runPass testResolve [baseRow, writableReplicaRow]).clusters ("ks", "0")).map
        (fun ca => ca.totalTablets) = some 2 := by
  have h := runPass_totalTablets testResolve baseRow [writableReplicaRow] ("ks", "0")
    (by decide)
  simpa [resolveDurability, testResolve] using h

/-- Number of analyses of shard `key` marked as the cluster primary. -/
def countClusterPrimary (res : List ReplicationAnalysis) (key : KSKey) : Nat :=
  res.countP (fun a =>
    decide (a.AnalyzedKeyspace = key.1) && decide (a.AnalyzedShard = key.2) &&
      a.IsClusterPrimary)

/-- The primary alias the pass records for shard `key`: taken from the first
row of the shard that survives the skip checks — the row's tablet alias if that
row is of `PRIMARY` type, empty otherwise (and empty if no row of the shard is
consumed). -/
def firstConsumedPrimaryAlias (rows : List Row) (key : KSKey) : String :=
  match rows.find? (fun r => rowConsumed r && decide ((r.keyspace, r.shard) = key)) with
  | some r => rowPrimaryAliasIfPrimary r
  | none => ""

/-- The cluster-primary invariant: no shard has a marked cluster primary before
its aggregate exists, at most one afterwards, and marked entries are of
`PRIMARY` tablet type. -/
def clusterPrimaryInv (st : PassState) : Prop :=
  (∀ key : KSKey, (st.clusters key = none → countClusterPrimary st.result key = 0) ∧
    countClusterPrimary st.result key ≤ 1) ∧
  (∀ a ∈ st.result, a.IsClusterPrimary = true → a.TabletType = TabletType.PRIMARY)

theorem countClusterPrimary_append (res : List ReplicationAnalysis)
    (a : ReplicationAnalysis) (key : KSKey) :
    countClusterPrimary (res ++ [a]) key =
      countClusterPrimary res key +
        (if a.AnalyzedKeyspace = key.1 ∧ a.AnalyzedShard = key.2 ∧
            a.IsClusterPrimary = true then 1 else 0) := by
  simp only [countClusterPrimary, List.countP_append, List.countP_cons, List.countP_nil,
    Nat.zero_add, Bool.and_eq_true, decide_eq_true_eq, and_assoc]

theorem continueRow_result (st : PassState) (key : KSKey) (ca : clusterAnalysis)
    (row : Row) (tablet primaryTablet : Tablet) (isCP : Bool) :
    (continueRow st key ca row tablet primaryTablet isCP).result = st.result ∨
    ∃ dur, (continueRow st key ca row tablet primaryTablet isCP).result =
      st.result ++ [mkReplicationAnalysis row tablet primaryTablet isCP
        (classify dur ca.primaryAlias isCP tablet primaryTablet row).1
        (structureChecks row)] := by
  unfold continueRow
  by_cases hfl : ca.hasShardWideAction = true
  · left
    simp [hfl]
  · have hfl' : ca.hasShardWideAction = false := by simpa using hfl
    cases hdur : ca.durability with
    | none => left; simp [hfl', hdur]
    | some dur =>
      by_cases hsupp : (classify dur ca.primaryAlias isCP tablet primaryTablet row).1 =
          AnalysisCode.NoProblem ∧ structureChecks row = []
      · left
        simp [hfl', hdur, hsupp]
      · right
        refine ⟨dur, ?_⟩
        simp [hfl', hdur, hsupp]

theorem continueRow_cpInv (st : PassState) (key : KSKey) (ca : clusterAnalysis)
    (row : Row) (tablet primaryTablet : Tablet) (isCP : Bool)
    (hkey : key = (row.keyspace, row.shard))
    (hcp_type : isCP = true → tablet.ttype = TabletType.PRIMARY)
    (hcp_count : isCP = true → countClusterPrimary st.result key = 0)
    (hinv : clusterPrimaryInv st) :
    clusterPrimaryInv (continueRow st key ca row tablet primaryTablet isCP) := by
  have hsome := continueRow_clusters_key st key ca row tablet primaryTablet isCP
  obtain ⟨flag', hsome⟩ := hsome
  rcases continueRow_result st key ca row tablet primaryTablet isCP with hres | ⟨dur, hres⟩
  · constructor
    · intro k
      rw [hres]
      by_cases hk : k = key
      · subst hk
        refine ⟨?_, (hinv.1 k).2⟩
        intro hnone
        rw [hsome] at hnone
        exact absurd hnone (by simp)
      · rw [continueRow_clusters_other st key k ca row tablet primaryTablet isCP hk]
        exact hinv.1 k
    · rw [hres]
      exact hinv.2
  · have ha_fields :
        (mkReplicationAnalysis row tablet primaryTablet isCP
          (classify dur ca.primaryAlias isCP tablet primaryTablet row).1
          (structureChecks row)).AnalyzedKeyspace = row.keyspace ∧
        (mkReplicationAnalysis row tablet primaryTablet isCP
          (classify dur ca.primaryAlias isCP tablet primaryTablet row).1
          (structureChecks row)).AnalyzedShard = row.shard ∧
        (mkReplicationAnalysis row tablet primaryTablet isCP
          (classify dur ca.primaryAlias isCP tablet primaryTablet row).1
          (structureChecks row)).IsClusterPrimary = isCP ∧
        (mkReplicationAnalysis row tablet primaryTablet isCP
          (classify dur ca.primaryAlias isCP tablet primaryTablet row).1
          (structureChecks row)).TabletType = tablet.ttype := by
      simp [mkReplicationAnalysis]
    constructor
    · intro k
      rw [hres, countClusterPrimary_append]
      by_cases hk : k = key
      · subst hk
        refine ⟨?_, ?_⟩
        · intro hnone
          rw [hsome] at hnone
          exact absurd hnone (by simp)
        · by_cases hcp : isCP = true
          · rw [hcp_count hcp]
            split <;> omega
          · have hcp' : isCP = false := by simpa using hcp
            rw [if_neg (by
              rintro ⟨-, -, hbad⟩
              rw [ha_fields.2.2.1, hcp'] at hbad
              exact Bool.false_ne_true hbad)]
            have := (hinv.1 k).2
            omega
      · rw [continueRow_clusters_other st key k ca row tablet primaryTablet isCP hk]
        rw [if_neg (by
          rintro ⟨h1, h2, -⟩
          apply hk
          have : k = (k.1, k.2) := rfl
          rw [this, ← h1, ← h2, ha_fields.1, ha_fields.2.1, hkey])]
        exact ⟨fun hnone => by have := (hinv.1 k).1 hnone; omega,
          by have := (hinv.1 k).2; omega⟩
    · rw [hres]
      intro a ha
      rcases List.mem_append.mp ha with ha' | ha'
      · exact hinv.2 a ha'
      · rw [List.mem_singleton] at ha'
        subst ha'
        intro hcp
        rw [ha_fields.2.2.2]
        exact hcp_type (by rw [← ha_fields.2.2.1]; exact hcp)

theorem processRow_cpInv (resolve : String → Option Durabler)
    (st : PassState) (row : Row) (hinv : clusterPrimaryInv st) :
    clusterPrimaryInv (processRow resolve st row) := by
  unfold processRow
  cases htab : row.tabletInfo with
  | none => exact hinv
  | some tablet =>
    simp only
    split
    · exact hinv
    · cases hpt : parsePrimaryTablet row.primaryTabletInfo with
      | none => exact hinv
      | some primaryTablet =>
        simp only
        split
        · exact hinv
        · cases hclu : st.clusters (row.keyspace, row.shard) with
          | none =>
            simp only
            cases hres : resolveDurability resolve row.durabilityPolicy with
            | none =>
              constructor
              · intro k
                by_cases hk : k = (row.keyspace, row.shard)
                · subst hk
                  refine ⟨fun hnone => ?_, (hinv.1 _).2⟩
                  simp [mapSet] at hnone
                · exact ⟨fun hnone => (hinv.1 k).1 (by simpa [mapSet, hk] using hnone),
                    (hinv.1 k).2⟩
              · exact hinv.2
            | some dur =>
              refine continueRow_cpInv st (row.keyspace, row.shard) _ row tablet
                primaryTablet _ rfl (fun h => by simpa using h)
                (fun _ => (hinv.1 (row.keyspace, row.shard)).1 hclu) hinv
          | some ca =>
            exact continueRow_cpInv st (row.keyspace, row.shard) ca row tablet
              primaryTablet false rfl (fun h => absurd h (by simp))
              (fun h => absurd h (by simp)) hinv

theorem foldl_processRow_cpInv (resolve : String → Option Durabler)
    (rows : List Row) (st : PassState) (hinv : clusterPrimaryInv st) :
    clusterPrimaryInv (rows.foldl (processRow resolve) st) := by
  induction rows generalizing st with
  | nil => exact hinv
  | cons row rest ih =>
    exact ih (processRow resolve st row) (processRow_cpInv resolve st row hinv)

theorem foldl_preserves_entry (resolve : String → Option Durabler)
    (rows : List Row) (st : PassState) (key : KSKey) (ca : clusterAnalysis)
    (hca : st.clusters key = some ca) :
    ∃ ca', (rows.foldl (processRow resolve) st).clusters key = some ca' ∧
      ca'.primaryAlias = ca.primaryAlias := by
  induction rows generalizing st ca with
  | nil => exact ⟨ca, hca, rfl⟩
  | cons r rest ih =>
    obtain ⟨ca1, h1, h2⟩ := processRow_preserves_entry resolve st r key ca hca
    obtain ⟨ca', h3, h4⟩ := ih (processRow resolve st r) ca1 h1
    exact ⟨ca', h3, h4.trans h2⟩

theorem foldl_primaryAlias_from_none (resolve : String → Option Durabler)
    (rows : List Row) (st : PassState) (key : KSKey)
    (hnone : st.clusters key = none) :
    ∀ ca, (rows.foldl (processRow resolve) st).clusters key = some ca →
      ca.primaryAlias = firstConsumedPrimaryAlias rows key := by
  induction rows generalizing st with
  | nil =>
    intro ca hca
    rw [List.foldl_nil, hnone] at hca
    exact absurd hca (by simp)
  | cons r rest ih =>
    intro ca hca
    by_cases hmatch : (rowConsumed r && decide ((r.keyspace, r.shard) = key)) = true
    · simp only [Bool.and_eq_true, decide_eq_true_eq] at hmatch
      obtain ⟨hc, hk⟩ := hmatch
      have hfind : firstConsumedPrimaryAlias (r :: rest) key = rowPrimaryAliasIfPrimary r := by
        unfold firstConsumedPrimaryAlias
        rw [List.find?_cons_of_pos _ (by simp [hc, hk])]
      obtain ⟨flag', h1⟩ := processRow_first resolve st r hc (by rw [hk]; exact hnone)
      rw [hk] at h1
      obtain ⟨ca', h3, h4⟩ := foldl_preserves_entry resolve rest (processRow resolve st r)
        key _ h1
      rw [List.foldl_cons] at hca
      rw [hca] at h3
      injection h3 with h3
      rw [hfind, h3]
      exact h4
    · have hfind : firstConsumedPrimaryAlias (r :: rest) key =
          firstConsumedPrimaryAlias rest key := by
        unfold firstConsumedPrimaryAlias
        rw [List.find?_cons_of_neg _ (by simpa using hmatch)]
      rw [hfind]
      rw [List.foldl_cons] at hca
      by_cases hk : (r.keyspace, r.shard) = key
      · have hc : rowConsumed r = false := by
          by_contra hcon
          have hc' : rowConsumed r = true := by simpa using hcon
          exact hmatch (by simp [hc', hk])
        rw [processRow_not_consumed resolve st r hc] at hca
        exact ih st hnone ca hca
      · have : (processRow resolve st r).clusters key = none := by
          rw [processRow_clusters_other resolve st r key (fun h => hk h.symm), hnone]
        exact ih (processRow resolve st r) this ca hca

theorem processRow_result_shape (resolve : String → Option Durabler)
    (st : PassState) (row : Row) :
    (processRow resolve st row).result = st.result ∨
    ∃ a, (processRow resolve st row).result = st.result ++ [a] ∧
      a.AnalyzedKeyspace = row.keyspace ∧ a.AnalyzedShard = row.shard ∧
      (a.IsClusterPrimary = true →
        st.clusters (row.keyspace, row.shard) = none ∧
        ∃ t, row.tabletInfo = some t ∧ t.ttype = TabletType.PRIMARY ∧
          a.AnalyzedInstanceAlias = t.tabletAlias) := by
  unfold processRow
  cases htab : row.tabletInfo with
  | none => left; rfl
  | some tablet =>
    simp only
    split
    · left; rfl
    · cases hpt : parsePrimaryTablet row.primaryTabletInfo with
      | none => left; rfl
      | some primaryTablet =>
        simp only
        split
        · left; rfl
        · cases hclu : st.clusters (row.keyspace, row.shard) with
          | none =>
            simp only
            cases hres : resolveDurability resolve row.durabilityPolicy with
            | none => left; rfl
            | some dur =>
              rcases continueRow_result st (row.keyspace, row.shard)
                  { hasShardWideAction := false, totalTablets := 0,
                    primaryAlias :=
                      if tablet.ttype = TabletType.PRIMARY then tablet.tabletAlias else "",
                    durability := some dur }
                  row tablet primaryTablet (tablet.ttype = TabletType.PRIMARY)
                with h | ⟨dur', h⟩
              · left; exact h
              · right
                refine ⟨_, h, by simp [mkReplicationAnalysis],
                  by simp [mkReplicationAnalysis], ?_⟩
                intro hcp
                have hP : (decide (tablet.ttype = TabletType.PRIMARY)) = true := by
                  simpa [mkReplicationAnalysis] using hcp
                exact ⟨by trivial, tablet, rfl, by simpa using hP,
                  by simp [mkReplicationAnalysis]⟩
          | some ca =>
            rcases continueRow_result st (row.keyspace, row.shard) ca row tablet
                primaryTablet false with h | ⟨dur', h⟩
            · left; exact h
            · right
              refine ⟨_, h, by simp [mkReplicationAnalysis],
                by simp [mkReplicationAnalysis], ?_⟩
              intro hcp
              exfalso
              have : (false : Bool) = true := by simpa [mkReplicationAnalysis] using hcp
              simp at this

theorem foldl_no_marked_after_aggregate (resolve : String → Option Durabler)
    (rows : List Row) (st : PassState) (key : KSKey) (ca : clusterAnalysis)
    (hsome : st.clusters key = some ca) :
    ∃ tail, (rows.foldl (processRow resolve) st).result = st.result ++ tail ∧
      ∀ a ∈ tail, a.AnalyzedKeyspace = key.1 → a.AnalyzedShard = key.2 →
        a.IsClusterPrimary = false := by
  induction rows generalizing st ca with
  | nil => exact ⟨[], by simp, by simp⟩
  | cons r rest ih =>
    obtain ⟨ca1, h1, -⟩ := processRow_preserves_entry resolve st r key ca hsome
    obtain ⟨tail2, h2, h3⟩ := ih (processRow resolve st r) ca1 h1
    rcases processRow_result_shape resolve st r with hres | ⟨a0, hres, hks, hsh, hmark⟩
    · refine ⟨tail2, ?_, h3⟩
      rw [List.foldl_cons, h2, hres]
    · refine ⟨a0 :: tail2, ?_, ?_⟩
      · rw [List.foldl_cons, h2, hres, List.append_assoc]
        rfl
      · intro a ha hks' hsh'
        rcases List.mem_cons.mp ha with rfl | ha'
        · by_contra hcp
          have hcp' : a.IsClusterPrimary = true := by simpa using hcp
          obtain ⟨hnone, -⟩ := hmark hcp'
          have hkeyeq : (r.keyspace, r.shard) = key := by
            have e1 : key.1 = r.keyspace := by rw [← hks', hks]
            have e2 : key.2 = r.shard := by rw [← hsh', hsh]
            calc (r.keyspace, r.shard) = (key.1, key.2) := by rw [e1, e2]
              _ = key := rfl
          rw [hkeyeq, hsome] at hnone
          exact absurd hnone (by simp)
        · exact h3 a ha' hks' hsh'

theorem foldl_marked_from_first (resolve : String → Option Durabler)
    (rows : List Row) (st : PassState) (key : KSKey)
    (hnone : st.clusters key = none) :
    ∃ tail, (rows.foldl (processRow resolve) st).result = st.result ++ tail ∧
      ∀ a ∈ tail, a.AnalyzedKeyspace = key.1 → a.AnalyzedShard = key.2 →
        a.IsClusterPrimary = true →
        ∃ r, rows.find? (fun r => rowConsumed r && decide ((r.keyspace, r.shard) = key)) =
            some r ∧
          ∃ t, r.tabletInfo = some t ∧ t.ttype = TabletType.PRIMARY ∧
            a.AnalyzedInstanceAlias = t.tabletAlias := by
  induction rows generalizing st with
  | nil => exact ⟨[], by simp, by simp⟩
  | cons r rest ih =>
    by_cases hmatch : (rowConsumed r && decide ((r.keyspace, r.shard) = key)) = true
    · have hm := hmatch
      simp only [Bool.and_eq_true, decide_eq_true_eq] at hm
      obtain ⟨hc, hk⟩ := hm
      have hfind : (r :: rest).find?
          (fun r => rowConsumed r && decide ((r.keyspace, r.shard) = key)) = some r :=
        List.find?_cons_of_pos _ hmatch
      obtain ⟨flag', hsome1⟩ := processRow_first resolve st r hc (by rw [hk]; exact hnone)
      rw [hk] at hsome1
      obtain ⟨tail2, h2, h3⟩ := foldl_no_marked_after_aggregate resolve rest
        (processRow resolve st r) key _ hsome1
      rcases processRow_result_shape resolve st r with hres | ⟨a0, hres, hks, hsh, hmark⟩
      · refine ⟨tail2, by rw [List.foldl_cons, h2, hres], ?_⟩
        intro a ha hks' hsh' hcp
        rw [h3 a ha hks' hsh'] at hcp
        exact absurd hcp (by simp)
      · refine ⟨a0 :: tail2, ?_, ?_⟩
        · rw [List.foldl_cons, h2, hres, List.append_assoc]
          rfl
        · intro a ha hks' hsh' hcp
          rcases List.mem_cons.mp ha with rfl | ha'
          · obtain ⟨-, t, ht, htp, hal⟩ := hmark hcp
            exact ⟨r, hfind, t, ht, htp, hal⟩
          · rw [h3 a ha' hks' hsh'] at hcp
            exact absurd hcp (by simp)
    · have hfind : (r :: rest).find?
          (fun r => rowConsumed r && decide ((r.keyspace, r.shard) = key)) =
          rest.find? (fun r => rowConsumed r && decide ((r.keyspace, r.shard) = key)) :=
        List.find?_cons_of_neg _ (by simpa using hmatch)
      by_cases hk : (r.keyspace, r.shard) = key
      · have hc : rowConsumed r = false := by
          by_contra hcon
          exact hmatch (by simp [show rowConsumed r = true by simpa using hcon, hk])
        rw [List.foldl_cons, processRow_not_consumed resolve st r hc]
        obtain ⟨tail, ha, hb⟩ := ih st hnone
        refine ⟨tail, ha, ?_⟩
        intro a hmem h1 h2 h3
        obtain ⟨r', hr1, hr2⟩ := hb a hmem h1 h2 h3
        exact ⟨r', by rw [hfind]; exact hr1, hr2⟩
      · have hnone1 : (processRow resolve st r).clusters key = none := by
          rw [processRow_clusters_other resolve st r key (fun h => hk h.symm)]
          exact hnone
        obtain ⟨tail2, h2, h3⟩ := ih (processRow resolve st r) hnone1
        rcases processRow_result_shape resolve st r with hres | ⟨a0, hres, hks, hsh, hmark⟩
        · refine ⟨tail2, by rw [List.foldl_cons, h2, hres], ?_⟩
          intro a ha ha1 ha2 ha3
          obtain ⟨r', hr1, hr2⟩ := h3 a ha ha1 ha2 ha3
          exact ⟨r', by rw [hfind]; exact hr1, hr2⟩
        · refine ⟨a0 :: tail2, ?_, ?_⟩
          · rw [List.foldl_cons, h2, hres, List.append_assoc]
            rfl
          · intro a ha ha1 ha2 ha3
            rcases List.mem_cons.mp ha with rfl | ha'
            · exfalso
              apply hk
              have e1 : key.1 = r.keyspace := by rw [← ha1, hks]
              have e2 : key.2 = r.shard := by rw [← ha2, hsh]
              calc (r.keyspace, r.shard) = (key.1, key.2) := by rw [e1, e2]
                _ = key := rfl
            · obtain ⟨r', hr1, hr2⟩ := h3 a ha' ha1 ha2 ha3
              exact ⟨r', by rw [hfind]; exact hr1, hr2⟩

/-- C10: in each pass at most one analysis per shard is marked
`IsClusterPrimary`; every marked analysis has `PRIMARY` tablet type; the shard
aggregate's `primaryAlias` is determined by the first consumed row of the shard
alone (that row's alias when it is of `PRIMARY` type, empty otherwise); and a
marked analysis can only originate from that first consumed row: its existence
forces the shard's first consumed row to be of `PRIMARY` type and the marked
analysis carries that row's tablet alias — so a `PRIMARY`-type row seen after
the shard's first row is never treated as the cluster primary and never updates
`primaryAlias`. -/
theorem runPass_cluster_primary_unique (resolve : String → Option Durabler)
    (rows : List Row) (key : KSKey) :
    countClusterPrimary (runPass resolve rows).result key ≤ 1 ∧
    (∀ a ∈ (runPass resolve rows).result, a.IsClusterPrimary = true →
      a.TabletType = TabletType.PRIMARY) ∧
    (∀ ca, (runPass resolve rows).clusters key = some ca →
      ca.primaryAlias = firstConsumedPrimaryAlias rows key) ∧
    (∀ a ∈ (runPass resolve rows).result, a.AnalyzedKeyspace = key.1 →
      a.AnalyzedShard = key.2 → a.IsClusterPrimary = true →
      ∃ r, rows.find? (fun r => rowConsumed r && decide ((r.keyspace, r.shard) = key)) =
          some r ∧
        ∃ t, r.tabletInfo = some t ∧ t.ttype = TabletType.PRIMARY ∧
          a.AnalyzedInstanceAlias = t.tabletAlias) := by
  have hinv0 : clusterPrimaryInv { clusters := fun _ => none, result := [] } :=
    ⟨fun _ => ⟨fun _ => rfl, by simp [countClusterPrimary]⟩, by simp⟩
  have hinv := foldl_processRow_cpInv resolve rows
    { clusters := fun _ => none, result := [] } hinv0
  obtain ⟨tail, htail, hmarked⟩ := foldl_marked_from_first resolve rows
    { clusters := fun _ => none, result := [] } key rfl
  refine ⟨(hinv.1 key).2, hinv.2,
    foldl_primaryAlias_from_none resolve rows _ key rfl, ?_⟩
  intro a ha h1 h2 h3
  refine hmarked a ?_ h1 h2 h3
  have : (runPass resolve rows).result = tail := by
    rw [show (runPass resolve rows).result =
      (rows.foldl (processRow resolve) { clusters := fun _ => none, result := [] }).result
      from rfl, htail]
    rfl
  rw [this] at ha
  exact ha

/-- Witness for C10: a shard whose first consumed row is a replica keeps an
empty `primaryAlias` for the whole pass even though a `PRIMARY`-type row
follows; and in a pass whose first row is a dead primary, the marked analysis
is traced back to that first consumed row. -/
theorem runPass_cluster_primary_unique_witness :
    countClusterPrimary
        (runPass testResolve [writableReplicaRow, basePrimaryRow]).result ("ks", "0") ≤ 1 ∧
    ({ hasShardWideAction := true, totalTablets := 2, primaryAlias := "",
       durability := some testDurabler } : clusterAnalysis).primaryAlias =
      firstConsumedPrimaryAlias [writableReplicaRow, basePrimaryRow] ("ks", "0") ∧
    (∃ r, [deadPrimaryRow, writableReplicaRow].find?
        (fun r => rowConsumed r && decide ((r.keyspace, r.shard) = (("ks", "0") : KSKey))) =
          some r ∧
      ∃ t, r.tabletInfo = some t ∧ t.ttype = TabletType.PRIMARY ∧
        ({ AnalyzedInstanceAlias := "zone1-0000000100", AnalyzedInstancePrimaryAlias := "",
           AnalyzedKeyspace := "ks", AnalyzedShard := "0",
           TabletType := TabletType.PRIMARY, IsPrimary := true, IsClusterPrimary := true,
           LastCheckValid := false, ReplicationStopped := false,
           Analysis := AnalysisCode.DeadPrimaryWithoutReplicas,
           StructureAnalysis := [] } : ReplicationAnalysis).AnalyzedInstanceAlias =
          t.tabletAlias) := by
  refine ⟨(runPass_cluster_primary_unique testResolve
    [writableReplicaRow, basePrimaryRow] ("ks", "0")).1, ?_, ?_⟩
  · exact (runPass_cluster_primary_unique testResolve
      [writableReplicaRow, basePrimaryRow] ("ks", "0")).2.2.1 _ rfl
  · exact (runPass_cluster_primary_unique testResolve
      [deadPrimaryRow, writableReplicaRow] ("ks", "0")).2.2.2 _ (by decide) rfl rfl rfl

/-- The empty audit state: cold cache, no last-analysis rows, empty changelog. -/
def emptyAudit : AuditState :=
  { cache := fun _ => none, lastAnalysis := fun _ => none, changelog := [] }

theorem audit_cache_hit (f : StoreFaults) (st : AuditState) (tabletAlias : String)
    (analysisCode : AnalysisCode) (h : st.cache tabletAlias = some analysisCode) :
    auditInstanceAnalysisInChangelog f st tabletAlias analysisCode = (st, false) := by
  unfold auditInstanceAnalysisInChangelog
  rw [if_pos h]
  have hfun : (fun a => if a = tabletAlias then some analysisCode else st.cache a) =
      st.cache := by
    funext a
    by_cases ha : a = tabletAlias
    · subst ha
      rw [if_pos rfl, h]
    · rw [if_neg ha]
  rw [hfun]

theorem audit_first_insertion (st : AuditState) (tabletAlias : String)
    (analysisCode : AnalysisCode)
    (hcache : st.cache tabletAlias = none)
    (hlast : st.lastAnalysis tabletAlias = none) :
    auditInstanceAnalysisInChangelog noFaults st tabletAlias analysisCode =
      ({ cache := fun a => if a = tabletAlias then some analysisCode else st.cache a,
         lastAnalysis := fun a => if a = tabletAlias then some analysisCode
           else st.lastAnalysis a,
         changelog := st.changelog ++ [(tabletAlias, analysisCode)] }, false) := by
  unfold auditInstanceAnalysisInChangelog
  rw [if_neg (by rw [hcache]; simp)]
  simp [noFaults, hlast]

theorem audit_code_changed (st : AuditState) (tabletAlias : String)
    (analysisCode stored : AnalysisCode)
    (hcache : ¬st.cache tabletAlias = some analysisCode)
    (hlast : st.lastAnalysis tabletAlias = some stored)
    (hne : stored ≠ analysisCode) :
    auditInstanceAnalysisInChangelog noFaults st tabletAlias analysisCode =
      ({ cache := fun a => if a = tabletAlias then some analysisCode else st.cache a,
         lastAnalysis := fun a => if a = tabletAlias then some analysisCode
           else st.lastAnalysis a,
         changelog := st.changelog ++ [(tabletAlias, analysisCode)] }, false) := by
  unfold auditInstanceAnalysisInChangelog
  rw [if_neg hcache]
  simp [noFaults, hlast, hne]

theorem auditRepeat_fixpoint (f : StoreFaults) (st : AuditState)
    (tabletAlias : String) (analysisCode : AnalysisCode) (n : Nat)
    (h : st.cache tabletAlias = some analysisCode) :
    auditRepeat f st tabletAlias analysisCode n = st := by
  induction n with
  | zero => rfl
  | succ n ih =>
    unfold auditRepeat
    rw [audit_cache_hit f st tabletAlias analysisCode h]
    exact ih

/-- C4: from empty debounce state for an alias (cold cache, no last-analysis
row), any number of consecutive audit calls with the same code appends exactly
one changelog row in total, and a call with `x` followed by a call with a
different `y` appends exactly the two rows `(alias, x)` then `(alias, y)`. -/
theorem audit_exactly_once_per_change (st : AuditState) (tabletAlias : String)
    (x y : AnalysisCode) (n : Nat)
    (hcache : st.cache tabletAlias = none)
    (hlast : st.lastAnalysis tabletAlias = none) :
    (auditRepeat noFaults st tabletAlias x (n + 1)).changelog =
      st.changelog ++ [(tabletAlias, x)] ∧
    (x ≠ y →
      (auditInstanceAnalysisInChangelog noFaults
        (auditInstanceAnalysisInChangelog noFaults st tabletAlias x).1
        tabletAlias y).1.changelog =
      st.changelog ++ [(tabletAlias, x), (tabletAlias, y)]) := by
  have hfirst := audit_first_insertion st tabletAlias x hcache hlast
  constructor
  · show (auditRepeat noFaults
      (auditInstanceAnalysisInChangelog noFaults st tabletAlias x).1
      tabletAlias x n).changelog = _
    rw [hfirst]
    rw [auditRepeat_fixpoint noFaults _ tabletAlias x n (by simp)]
  · intro hxy
    rw [hfirst]
    rw [audit_code_changed _ tabletAlias y x (by simp [hxy]) (by simp) hxy]
    simp

/-- Witness for C4: five repeated `DeadPrimary` audits from the empty state
yield one changelog row; `DeadPrimary` then `ReplicaIsWritable` yield the two
rows in order. -/
theorem audit_exactly_once_per_change_witness :
    (auditRepeat noFaults emptyAudit "zone1-0000000100" AnalysisCode.DeadPrimary 5).changelog =
      [("zone1-0000000100", AnalysisCode.DeadPrimary)] ∧
    (auditInstanceAnalysisInChangelog noFaults
      (auditInstanceAnalysisInChangelog noFaults emptyAudit "zone1-0000000100"
        AnalysisCode.DeadPrimary).1
      "zone1-0000000100" AnalysisCode.ReplicaIsWritable).1.changelog =
      [("zone1-0000000100", AnalysisCode.DeadPrimary),
       ("zone1-0000000100", AnalysisCode.ReplicaIsWritable)] := by
  have h := audit_exactly_once_per_change emptyAudit "zone1-0000000100"
    AnalysisCode.DeadPrimary AnalysisCode.ReplicaIsWritable 4 rfl rfl
  exact ⟨h.1, h.2 (by decide)⟩

/-- Counterexample to C6 as stated: when only the changelog append fails, the
call returns the error and writes no changelog row, but the in-memory cache has
already been refreshed (line 715 precedes the changelog insert), so the next
audit call with the same code is debounced and writes nothing — it does not
re-attempt the durable write. -/
theorem audit_changelog_failure_refreshes_cache_counterexample :
    (auditInstanceAnalysisInChangelog
        { failUpdate := false, failInsert := false, failChangelog := true }
        emptyAudit "zone1-0000000100" AnalysisCode.DeadPrimary).1.cache
        "zone1-0000000100" = some AnalysisCode.DeadPrimary ∧
    (auditInstanceAnalysisInChangelog
        { failUpdate := false, failInsert := false, failChangelog := true }
        emptyAudit "zone1-0000000100" AnalysisCode.DeadPrimary).1.changelog = [] ∧
    (auditInstanceAnalysisInChangelog
        { failUpdate := false, failInsert := false, failChangelog := true }
        emptyAudit "zone1-0000000100" AnalysisCode.DeadPrimary).2 = true ∧
    (auditInstanceAnalysisInChangelog noFaults
        (auditInstanceAnalysisInChangelog
          { failUpdate := false, failInsert := false, failChangelog := true }
          emptyAudit "zone1-0000000100" AnalysisCode.DeadPrimary).1
        "zone1-0000000100" AnalysisCode.DeadPrimary).1.changelog = [] := by
  exact ⟨rfl, rfl, rfl, rfl⟩

/-- C6 (amended): a failing conditional update or failing insert-if-absent
aborts the call with an error, no durable write and the cache unrefreshed, so a
later call with the same code re-attempts the write; a failing changelog append
also aborts with an error and no changelog row, but by then the last-analysis
row and the in-memory cache have already been set to the new code, so a later
call with the same code is debounced instead of re-attempting. -/
theorem audit_store_error_semantics (st : AuditState) (tabletAlias : String)
    (analysisCode : AnalysisCode) (b1 b2 : Bool)
    (hmiss : ¬st.cache tabletAlias = some analysisCode) :
    (auditInstanceAnalysisInChangelog
        { failUpdate := true, failInsert := b1, failChangelog := b2 }
        st tabletAlias analysisCode = (st, true)) ∧
    ((st.lastAnalysis tabletAlias = none ∨
        st.lastAnalysis tabletAlias = some analysisCode) →
      auditInstanceAnalysisInChangelog
        { failUpdate := false, failInsert := true, failChangelog := b2 }
        st tabletAlias analysisCode = (st, true)) ∧
    (∀ stored, st.lastAnalysis tabletAlias = some stored → stored ≠ analysisCode →
      auditInstanceAnalysisInChangelog
        { failUpdate := false, failInsert := b1, failChangelog := true }
        st tabletAlias analysisCode =
      ({ cache := fun a => if a = tabletAlias then some analysisCode else st.cache a,
         lastAnalysis := fun a => if a = tabletAlias then some analysisCode
           else st.lastAnalysis a,
         changelog := st.changelog }, true)) := by
  refine ⟨?_, ?_, ?_⟩
  · unfold auditInstanceAnalysisInChangelog
    rw [if_neg hmiss]
    simp
  · intro hlast
    unfold auditInstanceAnalysisInChangelog
    rw [if_neg hmiss]
    rcases hlast with hlast | hlast <;> simp [hlast]
  · intro stored hlast hne
    unfold auditInstanceAnalysisInChangelog
    rw [if_neg hmiss]
    simp [hlast, hne]

/-- Witness for the amended C6 at the empty state and a one-row ledger. -/
theorem audit_store_error_semantics_witness :
    (auditInstanceAnalysisInChangelog
        { failUpdate := true, failInsert := false, failChangelog := false }
        emptyAudit "zone1-0000000100" AnalysisCode.DeadPrimary =
      (emptyAudit, true)) ∧
    (auditInstanceAnalysisInChangelog
        { failUpdate := false, failInsert := true, failChangelog := false }
        emptyAudit "zone1-0000000100" AnalysisCode.DeadPrimary =
      (emptyAudit, true)) := by
  have h := audit_store_error_semantics emptyAudit "zone1-0000000100"
    AnalysisCode.DeadPrimary false false (by simp [emptyAudit])
  exact ⟨h.1, h.2.1 (Or.inl rfl)⟩
